import Mathlib

/-!
Verification of the SmartAPI streaming clients (market-data WebSocket client
and order-status WebSocket client) against their natural-language
specification.

The embedding is shallow: the TypeScript code is translated into pure Lean
definitions.  JavaScript numbers are modelled as `ℚ` (every arithmetic
operation appearing in the translated code — integer extraction from byte
buffers and division by a constant scale factor — is exact on the values
involved, so `ℚ` is a faithful model), Node `Buffer` reads are modelled as
`Option`-valued functions on `List Nat` (a byte list), where `none` models
the `RangeError` thrown by an out-of-bounds read; the surrounding
`try { ... } catch` blocks of the source become `Option` plumbing.
Stateful class methods become explicit state-passing functions
`State → State × outputs`, and `emit`/`ws.send`/`setTimeout` calls become
elements of an explicit output list.
-/

namespace SmartAPI

/-! ## Buffer reads (Node.js `Buffer`, little endian)

`none` models the `RangeError` thrown when the read extends past the end of
the buffer. -/

/-- `buf.readUInt8 off`: one unsigned byte. -/
def readUInt8 (data : List Nat) (off : Nat) : Option Nat :=
  data[off]?

/-- Read `w` consecutive bytes starting at `off`, little endian, as an
unsigned number.  Fails iff `off + w` exceeds the buffer length. -/
def readULE (data : List Nat) (off w : Nat) : Option Nat :=
  match w with
  | 0 => some 0
  | n + 1 => do
    let b ← data[off]?
    let rest ← readULE data (off + 1) n
    pure (b + 256 * rest)

/-- Interpret an unsigned `w`-byte value as two's-complement signed. -/
def toSigned (w : Nat) (v : Nat) : Int :=
  if v < 2 ^ (8 * w - 1) then (v : Int) else (v : Int) - 2 ^ (8 * w)

/-- `buf.readInt8 off`. -/
def readInt8 (data : List Nat) (off : Nat) : Option Int :=
  (readUInt8 data off).map (toSigned 1)

/-- `buf.readInt16LE off`. -/
def readInt16LE (data : List Nat) (off : Nat) : Option Int :=
  (readULE data off 2).map (toSigned 2)

/-- `buf.readInt32LE off`. -/
def readInt32LE (data : List Nat) (off : Nat) : Option Int :=
  (readULE data off 4).map (toSigned 4)

/-- `buf.readBigInt64LE off` followed by the source's `Number(...)`
conversion, modelled exactly (no 53-bit rounding; every claim under
verification is insensitive to it). -/
def readBigInt64LE (data : List Nat) (off : Nat) : Option Int :=
  (readULE data off 8).map (toSigned 8)

/-- A JavaScript IEEE-754 double: every finite double is a rational;
`NaN`/`±Infinity` are collapsed into `nonfinite` (no claim inspects them,
they are only carried through undisturbed). -/
inductive JSDouble where
  | finite (q : ℚ)
  | nonfinite
  deriving DecidableEq, Repr

/-- `buf.readDoubleLE off`: IEEE-754 binary64 decoding. -/
def readDoubleLE (data : List Nat) (off : Nat) : Option JSDouble :=
  (readULE data off 8).map fun bits =>
    let sign : Nat := bits / 2 ^ 63
    let expo : Nat := (bits / 2 ^ 52) % 2 ^ 11
    let mant : Nat := bits % 2 ^ 52
    if expo = 2047 then JSDouble.nonfinite
    else
      let mag : ℚ :=
        if expo = 0 then (mant : ℚ) * (2 : ℚ) ^ (-1074 : ℤ)
        else ((2 ^ 52 + mant : ℕ) : ℚ) * (2 : ℚ) ^ ((expo : ℤ) - 1075)
      JSDouble.finite (if sign = 1 then -mag else mag)

/-! ## Enumerations (from the `FeedMode`, `ExchangeType`, `Action` and
`ConnectionState` enums of the market-data WebSocket module).  The numeric
values are the TypeScript enum values; they travel on the wire, so the
model keeps them as numbers where the code compares numbers. -/

namespace FeedMode
def LTP : Int := 1
def QUOTE : Int := 2
def SNAP_QUOTE : Int := 3
def DEPTH_20 : Int := 4
end FeedMode

namespace ExchangeType
def NSE_CM : Int := 1
def NSE_FO : Int := 2
def BSE_CM : Int := 3
def BSE_FO : Int := 4
def MCX_FO : Int := 5
def NCX_FO : Int := 7
def CDE_FO : Int := 13
end ExchangeType

namespace Action
def UNSUBSCRIBE : Int := 0
def SUBSCRIBE : Int := 1
end Action

/-! ## Tick record (the dynamically-built `tick` object of
`parseBinaryMessage`).  A field the code leaves `undefined` is `none`. -/

/-- One best-bid/best-ask entry (both the 20-byte SNAP_QUOTE records and
the 10-byte DEPTH_20 records decode into this shape). -/
structure DepthEntry where
  quantity : ℚ
  price : ℚ
  numOrders : ℚ
  deriving DecidableEq, Repr

/-- Decoded market-data tick. -/
structure Tick where
  mode : Int
  exchangeType : Int
  token : String
  sequenceNumber : Option Int := none
  exchangeTimestamp : Option Int := none
  lastTradedPrice : Option ℚ := none
  lastTradedQuantity : Option ℚ := none
  averageTradedPrice : Option ℚ := none
  volumeTradedForTheDay : Option ℚ := none
  totalBuyQuantity : Option JSDouble := none
  totalSellQuantity : Option JSDouble := none
  openPrice : Option ℚ := none
  highPrice : Option ℚ := none
  lowPrice : Option ℚ := none
  closePrice : Option ℚ := none
  lastTradedTimestamp : Option Int := none
  openInterest : Option Int := none
  openInterestChangePercent : Option JSDouble := none
  bestBids : Option (List DepthEntry) := none
  bestAsks : Option (List DepthEntry) := none
  upperCircuitLimit : Option ℚ := none
  lowerCircuitLimit : Option ℚ := none
  fiftyTwoWeekHighPrice : Option ℚ := none
  fiftyTwoWeekLowPrice : Option ℚ := none
  dummyPlaceholder : Option Int := none
  deriving DecidableEq, Repr

/-! ## Raw extraction (`parseBinaryMessage`, before price normalization) -/

/-- The token-reading loop: up to 25 bytes starting at buffer offset 2,
stopping at the first zero byte.  `fromCharCode` accumulation.  An
out-of-bounds read (buffer ends before a null terminator and before 25
bytes) is the thrown `RangeError`, i.e. `none`. -/
def readToken (data : List Nat) : Nat → String → Option String
  | 0, acc => some acc
  | n + 1, acc => do
    let c ← readUInt8 data (2 + (25 - (n + 1)))
    if c = 0 then pure acc
    else readToken data n (acc.push (Char.ofNat c))

/-- The best-5 loop of SNAP_QUOTE: 10 packets of 20 bytes each starting at
offset 147; each packet is routed to the bids or asks list by its leading
buy/sell flag. -/
def readBest5 (data : List Nat) : Nat → (List DepthEntry × List DepthEntry) →
    Option (List DepthEntry × List DepthEntry)
  | 0, acc => some acc
  | n + 1, acc => do
    let i := 10 - (n + 1)
    let off := 147 + i * 20
    let isBuy ← readInt16LE data off
    let quantity ← readBigInt64LE data (off + 2)
    let price ← readBigInt64LE data (off + 10)
    let numOrders ← readInt16LE data (off + 18)
    let entry : DepthEntry :=
      { quantity := (quantity : ℚ), price := (price : ℚ),
        numOrders := (numOrders : ℚ) }
    let acc' :=
      if isBuy = 1 then (acc.1 ++ [entry], acc.2) else (acc.1, acc.2 ++ [entry])
    readBest5 data n acc'

/-- One 10-byte DEPTH_20 record at offset `off`:
quantity (int32), price (int32), numOrders (int16). -/
def readDepthRecord (data : List Nat) (off : Nat) : Option DepthEntry := do
  let quantity ← readInt32LE data off
  let price ← readInt32LE data (off + 4)
  let numOrders ← readInt16LE data (off + 8)
  pure { quantity := (quantity : ℚ), price := (price : ℚ),
         numOrders := (numOrders : ℚ) }

/-- The 20-iteration DEPTH_20 side loop starting at byte offset `base`. -/
def readDepth20Side (data : List Nat) (base : Nat) : Option (List DepthEntry) :=
  (List.range 20).mapM fun i => readDepthRecord data (base + i * 10)

/-- A length-gated optional field: when the guard holds the read is
performed (an out-of-bounds read would propagate as the thrown exception),
otherwise the field is left `undefined`. -/
def gated {α : Type} (cond : Prop) [Decidable cond] (read : Option α) :
    Option (Option α) :=
  if cond then read.map some else some none

/-- `Number(...)` applied to an integer buffer read, as a rational. -/
def numQ (read : Option Int) : Option ℚ :=
  read.map fun v => (v : ℚ)

/-- The LTP-mode branch of `parseBinaryMessage` (packet size 51). -/
def parseLTPFields (data : List Nat) (base : Tick) : Option Tick := do
  let ltp ← gated (data.length ≥ 51) (numQ (readInt32LE data 43))
  pure { base with lastTradedPrice := ltp }

/-- The QUOTE-mode branch of `parseBinaryMessage` (packet size 123). -/
def parseQuoteFields (data : List Nat) (base : Tick) : Option Tick := do
  let ltp ← gated (data.length ≥ 51) (numQ (readInt32LE data 43))
  let ltq ← gated (data.length ≥ 59) (numQ (readBigInt64LE data 51))
  let atp ← gated (data.length ≥ 67) (numQ (readBigInt64LE data 59))
  let vol ← gated (data.length ≥ 75) (numQ (readBigInt64LE data 67))
  let tbq ← gated (data.length ≥ 83) (readDoubleLE data 75)
  let tsq ← gated (data.length ≥ 91) (readDoubleLE data 83)
  let o ← gated (data.length ≥ 99) (numQ (readBigInt64LE data 91))
  let h ← gated (data.length ≥ 107) (numQ (readBigInt64LE data 99))
  let l ← gated (data.length ≥ 115) (numQ (readBigInt64LE data 107))
  let c ← gated (data.length ≥ 123) (numQ (readBigInt64LE data 115))
  pure { base with
    lastTradedPrice := ltp, lastTradedQuantity := ltq,
    averageTradedPrice := atp, volumeTradedForTheDay := vol,
    totalBuyQuantity := tbq, totalSellQuantity := tsq,
    openPrice := o, highPrice := h, lowPrice := l, closePrice := c }

/-- The SNAP_QUOTE-mode branch of `parseBinaryMessage` (packet size 379):
the QUOTE fields, then timestamp/open-interest, the best-5 packets, and
circuit/52-week limits. -/
def parseSnapQuoteFields (data : List Nat) (base : Tick) : Option Tick := do
  let t ← parseQuoteFields data base
  let ltt ← gated (data.length ≥ 131) (readBigInt64LE data 123)
  let oi ← gated (data.length ≥ 139) (readBigInt64LE data 131)
  let oicp ← gated (data.length ≥ 147) (readDoubleLE data 139)
  let sides ← gated (data.length ≥ 347) (readBest5 data 10 ([], []))
  let ucl ← gated (data.length ≥ 355) (numQ (readBigInt64LE data 347))
  let lcl ← gated (data.length ≥ 363) (numQ (readBigInt64LE data 355))
  let wh ← gated (data.length ≥ 371) (numQ (readBigInt64LE data 363))
  let wl ← gated (data.length ≥ 379) (numQ (readBigInt64LE data 371))
  pure { t with
    lastTradedTimestamp := ltt, openInterest := oi,
    openInterestChangePercent := oicp,
    bestBids := sides.map Prod.fst, bestAsks := sides.map Prod.snd,
    upperCircuitLimit := ucl, lowerCircuitLimit := lcl,
    fiftyTwoWeekHighPrice := wh, fiftyTwoWeekLowPrice := wl }

/-- The DEPTH_20-mode branch of `parseBinaryMessage`: the 20-level bid and
ask arrays are extracted only when the exchange type is `NSE_CM` and the
buffer holds the full 443-byte layout; otherwise the tick keeps just the
header fields. -/
def parseDepth20Fields (data : List Nat) (base : Tick) : Option Tick := do
  if base.exchangeType = ExchangeType.NSE_CM ∧ data.length ≥ 443 then do
    let ts20 ← gated (data.length ≥ 35) (readBigInt64LE data 27)
    let dummy ← gated (data.length ≥ 43) (readBigInt64LE data 35)
    let bids ← readDepth20Side data 43
    let asks ← readDepth20Side data 243
    pure { base with
      exchangeTimestamp := ts20
      dummyPlaceholder := dummy
      bestBids := some bids
      bestAsks := some asks }
  else pure base

/-- Raw extraction phase of `parseBinaryMessage`: everything before the
price-normalization block.  `none` is the caught exception path. -/
def rawParse (data : List Nat) : Option Tick := do
  let mode ← readInt8 data 0
  let exchangeType ← readInt8 data 1
  let token ← readToken data 25 ""
  let seq ← gated (data.length ≥ 35) (readBigInt64LE data 27)
  let ts ← gated (data.length ≥ 43) (readBigInt64LE data 35)
  let base : Tick :=
    { mode := mode, exchangeType := exchangeType, token := token,
      sequenceNumber := seq, exchangeTimestamp := ts }
  if mode = FeedMode.LTP then parseLTPFields data base
  else if mode = FeedMode.QUOTE then parseQuoteFields data base
  else if mode = FeedMode.SNAP_QUOTE then parseSnapQuoteFields data base
  else if mode = FeedMode.DEPTH_20 then parseDepth20Fields data base
  else pure base

/-! ## Price normalization (`parseBinaryMessage`, the
"Normalize price values" block) -/

/-- The scale divisor: 10,000,000 for the currency-derivative exchange
code, 100 otherwise. -/
def divisor (exchangeType : Int) : ℚ :=
  if exchangeType = ExchangeType.CDE_FO then 10000000 else 100

/-- The normalization block: a no-op unless `lastTradedPrice` was
extracted; otherwise divides the listed price fields (and the prices
inside `bestBids`/`bestAsks`) by the divisor. -/
def normalizeTick (tick : Tick) : Tick :=
  match tick.lastTradedPrice with
  | none => tick
  | some ltp =>
    let d := divisor tick.exchangeType
    { tick with
      lastTradedPrice := some (ltp / d)
      openPrice := tick.openPrice.map (· / d)
      highPrice := tick.highPrice.map (· / d)
      lowPrice := tick.lowPrice.map (· / d)
      closePrice := tick.closePrice.map (· / d)
      upperCircuitLimit := tick.upperCircuitLimit.map (· / d)
      lowerCircuitLimit := tick.lowerCircuitLimit.map (· / d)
      fiftyTwoWeekHighPrice := tick.fiftyTwoWeekHighPrice.map (· / d)
      fiftyTwoWeekLowPrice := tick.fiftyTwoWeekLowPrice.map (· / d)
      bestBids := tick.bestBids.map (List.map fun b => { b with price := b.price / d })
      bestAsks := tick.bestAsks.map (List.map fun a => { a with price := a.price / d }) }

/-- Full `parseBinaryMessage` decoding pipeline: raw extraction followed by
price normalization; `none` is the caught-and-logged exception path
(frame dropped). -/
def parseBinaryMessage (data : List Nat) : Option Tick :=
  (rawParse data).map normalizeTick

/-! ## Market-data stream client state machine (`SmartAPIWebSocket`)

Each class method becomes a pure function `WSClient → WSClient × outputs`.
`emit`, `ws.send`, `ws.close` and `setTimeout` calls become elements of an
explicit `Output` list, in the order the code performs them.  The socket
handle `this.ws` is modelled by `wsPresent` (the handle is not null) and
`wsOpen` (its ready state is OPEN). -/

/-- `ConnectionState` enum of the market-data module. -/
inductive ConnectionState where
  | CONNECTING
  | CONNECTED
  | DISCONNECTING
  | DISCONNECTED
  | ERROR
  deriving DecidableEq, Repr

/-- `SubscriptionData` interface. -/
structure SubscriptionData where
  correlationId : String
  exchangeType : Int
  token : String
  feedMode : Int
  deriving DecidableEq, Repr

/-- One `{ exchangeType, tokens }` element of a request's `tokenList`. -/
structure TokenGroup where
  exchangeType : Int
  tokens : List String
  deriving DecidableEq, Repr

/-- `WebSocketRequest` payload (WebSocket Streaming 2.0). -/
structure WebSocketRequest where
  correlationID : String
  action : Int
  mode : Int
  tokenList : List TokenGroup
  deriving DecidableEq, Repr

/-- Observable effects of a method call, in program order. -/
inductive Output where
  /-- `this.emit(channel, ...)`. -/
  | emit (channel : String)
  /-- `this.emit('error', { errorCode, errorMessage, ... })`. -/
  | emitError (errorCode : String) (errorMessage : String)
  /-- `this.ws.send(JSON.stringify(request))`. -/
  | sendFrame (req : WebSocketRequest)
  /-- `this.ws.close()`. -/
  | closeTransport
  /-- `setTimeout(() => this.connect()..., delayMs)`: a delayed automatic
  reconnect attempt. -/
  | scheduleReconnect (delayMs : Nat)
  /-- a `this.connect()` call issued from inside `subscribe`/`subscribeMultiple`. -/
  | connectInitiated
  deriving DecidableEq, Repr

/-- The promise settlement of an operation: `.error` is `reject(...)`,
`.ok` is `resolve(...)`, both carrying the `{ status, message }` payload. -/
structure ApiResponse where
  status : Bool
  message : String
  deriving DecidableEq, Repr

/-- The mutable fields of `SmartAPIWebSocket` relevant to the protocol. -/
structure WSClient where
  connectionState : ConnectionState
  subscriptions : List (String × SubscriptionData)
  reconnectAttempts : Nat
  maxReconnectAttempts : Nat
  reconnectInterval : Nat
  heartbeatActive : Bool
  pendingSubscriptions : List SubscriptionData
  wsPresent : Bool
  wsOpen : Bool
  deriving DecidableEq, Repr

/-- Client as constructed: DISCONNECTED, empty registry, no socket,
`maxReconnectAttempts = 5`, `reconnectInterval = 5000`. -/
def initialClient : WSClient :=
  { connectionState := ConnectionState.DISCONNECTED
    subscriptions := []
    reconnectAttempts := 0
    maxReconnectAttempts := 5
    reconnectInterval := 5000
    heartbeatActive := false
    pendingSubscriptions := []
    wsPresent := false
    wsOpen := false }

/-- JavaScript `Map.prototype.set`: overwrite in place, else append
(insertion order is preserved, an overwrite keeps the original position). -/
def mapSet {α : Type} : List (String × α) → String → α → List (String × α)
  | [], k, v => [(k, v)]
  | (k', v') :: rest, k, v =>
    if k' = k then (k, v) :: rest else (k', v') :: mapSet rest k v

/-- JavaScript `Map.prototype.get`. -/
def mapGet {α : Type} : List (String × α) → String → Option α
  | [], _ => none
  | (k', v) :: rest, k => if k' = k then some v else mapGet rest k

/-- JavaScript `Map.prototype.delete`. -/
def mapDelete {α : Type} : List (String × α) → String → List (String × α)
  | [], _ => []
  | (k', v) :: rest, k =>
    if k' = k then rest else (k', v) :: mapDelete rest k

/-- Add `v` to the bucket of `k` in an insertion-ordered grouping map
(the `Map<K, V[]>` accumulation idiom used throughout the module). -/
def groupAdd {κ α : Type} [DecidableEq κ] :
    List (κ × List α) → κ → α → List (κ × List α)
  | [], k, v => [(k, [v])]
  | (k', vs) :: rest, k, v =>
    if k' = k then (k', vs ++ [v]) :: rest else (k', vs) :: groupAdd rest k v

/-- Lookup in an insertion-ordered grouping map. -/
def groupGet {κ α : Type} [DecidableEq κ] : List (κ × α) → κ → Option α
  | [], _ => none
  | (k', vs) :: rest, k => if k' = k then some vs else groupGet rest k

/-- `getSubscriptionKey`: the `` `${exchangeType}:${token}` `` registry key. -/
def getSubscriptionKey (exchangeType : Int) (token : String) : String :=
  toString exchangeType ++ ":" ++ token

/-- The DEPTH_20 token count examined by `sendSubscriptionRequest`:
total number of tokens across the NSE_CM entries of the token list. -/
def totalNseCmTokens (tokenList : List TokenGroup) : Nat :=
  tokenList.foldl
    (fun acc item =>
      if item.exchangeType = ExchangeType.NSE_CM then acc + item.tokens.length
      else acc) 0

/-- `sendSubscriptionRequest`: drops the request when the socket is not
open; rejects DEPTH_20 requests of more than 50 NSE_CM tokens with an
`E1002` error event; otherwise sends the JSON frame.  The client state is
not modified. -/
def sendSubscriptionRequest (c : WSClient) (correlationID : String)
    (feedMode : Int) (tokenList : List TokenGroup) (action : Int) :
    List Output :=
  if ¬ (c.wsPresent ∧ c.wsOpen) then []
  else if feedMode = FeedMode.DEPTH_20 ∧ totalNseCmTokens tokenList > 50 then
    [Output.emitError "E1002" "Invalid Request. Subscription Limit Exceeded."]
  else
    [Output.sendFrame
      { correlationID := correlationID, action := action,
        mode := feedMode, tokenList := tokenList }]

/-- `subscribe(correlationId, exchangeType, token, feedMode)`. -/
def subscribe (c : WSClient) (correlationId : String) (exchangeType : Int)
    (token : String) (feedMode : Int) :
    WSClient × Except ApiResponse ApiResponse × List Output :=
  if feedMode = FeedMode.DEPTH_20 ∧ exchangeType ≠ ExchangeType.NSE_CM then
    (c, Except.error
      { status := false,
        message := "20-Depth Mode is available only for NSE_CM segment" }, [])
  else if c.connectionState ≠ ConnectionState.CONNECTED then
    let entry : SubscriptionData :=
      { correlationId := correlationId, exchangeType := exchangeType,
        token := token, feedMode := feedMode }
    let c1 := { c with
      pendingSubscriptions := c.pendingSubscriptions ++ [entry] }
    let outs :=
      if c.connectionState = ConnectionState.DISCONNECTED then
        [Output.connectInitiated]
      else []
    (c1, Except.ok { status := true, message := "Subscription queued" }, outs)
  else
    let key := getSubscriptionKey exchangeType token
    let entry : SubscriptionData :=
      { correlationId := correlationId, exchangeType := exchangeType,
        token := token, feedMode := feedMode }
    let c1 := { c with subscriptions := mapSet c.subscriptions key entry }
    let outs := sendSubscriptionRequest c1 correlationId feedMode
      [{ exchangeType := exchangeType, tokens := [token] }] Action.SUBSCRIBE
    (c1, Except.ok { status := true, message := "Subscription request sent" },
      outs)

/-- One `{ exchangeType, token }` element of a `subscribeMultiple` batch. -/
structure SymbolRef where
  exchangeType : Int
  token : String
  deriving DecidableEq, Repr

/-- The derived per-symbol correlation id of `subscribeMultiple`:
`` `${correlationId}-${symbol.exchangeType}-${symbol.token}` ``. -/
def derivedCorrelationId (correlationId : String) (s : SymbolRef) : String :=
  correlationId ++ "-" ++ toString s.exchangeType ++ "-" ++ s.token

/-- `subscribeMultiple(correlationId, symbols, feedMode)`. -/
def subscribeMultiple (c : WSClient) (correlationId : String)
    (symbols : List SymbolRef) (feedMode : Int) :
    WSClient × Except ApiResponse ApiResponse × List Output :=
  if feedMode = FeedMode.DEPTH_20 ∧
      (symbols.find? (fun s => s.exchangeType ≠ ExchangeType.NSE_CM)).isSome then
    (c, Except.error
      { status := false,
        message := "20-Depth Mode is available only for NSE_CM segment" }, [])
  else if feedMode = FeedMode.DEPTH_20 ∧ symbols.length > 50 then
    (c, Except.error
      { status := false,
        message := "For 20-Depth Mode, the maximum limit is 50 tokens per connection" },
      [])
  else if c.connectionState ≠ ConnectionState.CONNECTED then
    let entries := symbols.map (fun s =>
      { correlationId := derivedCorrelationId correlationId s,
        exchangeType := s.exchangeType, token := s.token,
        feedMode := feedMode : SubscriptionData })
    let c1 := { c with
      pendingSubscriptions := c.pendingSubscriptions ++ entries }
    let outs :=
      if c.connectionState = ConnectionState.DISCONNECTED then
        [Output.connectInitiated]
      else []
    (c1, Except.ok { status := true, message := "Multiple subscriptions queued" },
      outs)
  else
    let newSubs := symbols.foldl
      (fun m s => mapSet m (getSubscriptionKey s.exchangeType s.token)
        { correlationId := derivedCorrelationId correlationId s,
          exchangeType := s.exchangeType, token := s.token,
          feedMode := feedMode }) c.subscriptions
    let c1 := { c with subscriptions := newSubs }
    let exchangeTokens := symbols.foldl
      (fun acc s => groupAdd acc s.exchangeType s.token) []
    let tokenList := exchangeTokens.map
      (fun g => { exchangeType := g.1, tokens := g.2 : TokenGroup })
    let outs := sendSubscriptionRequest c1 correlationId feedMode tokenList
      Action.SUBSCRIBE
    (c1, Except.ok
      { status := true, message := "Multiple subscription request sent" }, outs)

/-- One group of `processPendingSubscriptions`: saves every subscription of
the group in the registry, groups its tokens by exchange, and sends one
subscribe frame for the whole group. -/
def processGroup (c : WSClient) (now : Nat) (groupKey : String)
    (subs : List SubscriptionData) : WSClient × List Output :=
  let correlationId := "pending-" ++ groupKey ++ "-" ++ toString now
  let feedMode := (subs.head?.map SubscriptionData.feedMode).getD 0
  let newSubs := subs.foldl
    (fun m sub => mapSet m (getSubscriptionKey sub.exchangeType sub.token) sub)
    c.subscriptions
  let c1 := { c with subscriptions := newSubs }
  let exchangeTokens := subs.foldl
    (fun acc sub => groupAdd acc sub.exchangeType sub.token) []
  let tokenList := exchangeTokens.map
    (fun g => { exchangeType := g.1, tokens := g.2 : TokenGroup })
  (c1, sendSubscriptionRequest c1 correlationId feedMode tokenList
    Action.SUBSCRIBE)

/-- `processPendingSubscriptions`: a no-op on an empty queue; otherwise
groups the queue by feed mode (key `` `${sub.feedMode}` ``, insertion
order), processes each group, and clears the queue.  `now` is the
`Date.now()` timestamp embedded in the generated correlation ids. -/
def processPendingSubscriptions (c : WSClient) (now : Nat) :
    WSClient × List Output :=
  if c.pendingSubscriptions = [] then (c, [])
  else
    let groups := c.pendingSubscriptions.foldl
      (fun acc sub => groupAdd acc (toString sub.feedMode) sub) []
    let step := groups.foldl
      (fun (st : WSClient × List Output) g =>
        let r := processGroup st.1 now g.1 g.2
        (r.1, st.2 ++ r.2)) (c, [])
    ({ step.1 with pendingSubscriptions := [] }, step.2)

/-- The `open` event handler registered by `connect()`: transition to
CONNECTED, reset the reconnect counter, start the heartbeat, flush the
pending queue, then emit `connected` (and resolve the connect promise). -/
def openHandler (c : WSClient) (now : Nat) : WSClient × List Output :=
  let c1 := { c with connectionState := ConnectionState.CONNECTED,
                     reconnectAttempts := 0,
                     heartbeatActive := true,
                     wsOpen := true }
  let step := processPendingSubscriptions c1 now
  (step.1, step.2 ++ [Output.emit "connected"])

/-- `attemptReconnect`: emit the terminal `reconnect_failed` once the cap
is reached; otherwise count the attempt, emit `reconnecting`, and schedule
a delayed `connect()` retry. -/
def attemptReconnect (c : WSClient) : WSClient × List Output :=
  if c.reconnectAttempts ≥ c.maxReconnectAttempts then
    (c, [Output.emit "reconnect_failed"])
  else
    ({ c with reconnectAttempts := c.reconnectAttempts + 1 },
     [Output.emit "reconnecting", Output.scheduleReconnect c.reconnectInterval])

/-- The `close` event handler registered by `connect()`: stop the
heartbeat, transition to DISCONNECTED, emit `disconnect`, then call
`attemptReconnect` — unconditionally, whatever caused the closure. -/
def closeHandler (c : WSClient) : WSClient × List Output :=
  let c1 := { c with heartbeatActive := false,
                     connectionState := ConnectionState.DISCONNECTED,
                     wsOpen := false }
  let step := attemptReconnect c1
  (step.1, Output.emit "disconnect" :: step.2)

/-- The `error` event handler registered by `connect()`. -/
def errorHandler (c : WSClient) : WSClient × List Output :=
  ({ c with connectionState := ConnectionState.ERROR }, [Output.emit "error"])

/-- The synchronous body of `connect()`: an immediate no-op when already
CONNECTED; otherwise transition to CONNECTING and construct the socket.
`ctorOk` is the environment's choice of whether `new WebSocket(...)`
returns normally or throws (the `catch` branch of `connect`); on the throw
the handle keeps its previous value (the assignment never happened). -/
def connect (c : WSClient) (ctorOk : Bool) : WSClient × List Output :=
  if c.connectionState = ConnectionState.CONNECTED then (c, [])
  else
    let c1 := { c with connectionState := ConnectionState.CONNECTING }
    if ctorOk then ({ c1 with wsPresent := true, wsOpen := false }, [])
    else ({ c1 with connectionState := ConnectionState.ERROR },
          [Output.emit "error"])

/-- `disconnect()`: a no-op when already DISCONNECTED; otherwise transition
to DISCONNECTING, stop the heartbeat and drop the pending queue, and — only
when a socket handle exists — clear the registry, close the transport, null
the handle, transition to DISCONNECTED and emit `disconnect`. -/
def disconnect (c : WSClient) : WSClient × List Output :=
  if c.connectionState = ConnectionState.DISCONNECTED then (c, [])
  else
    let c1 := { c with connectionState := ConnectionState.DISCONNECTING,
                       heartbeatActive := false,
                       pendingSubscriptions := [] }
    if c1.wsPresent then
      ({ c1 with subscriptions := [],
                 wsPresent := false, wsOpen := false,
                 connectionState := ConnectionState.DISCONNECTED },
       [Output.closeTransport, Output.emit "disconnect"])
    else (c1, [])

/-- `unsubscribe(correlationId, exchangeType, token)`. -/
def unsubscribe (c : WSClient) (correlationId : String) (exchangeType : Int)
    (token : String) :
    WSClient × Except ApiResponse ApiResponse × List Output :=
  if c.connectionState ≠ ConnectionState.CONNECTED then
    (c, Except.error { status := false, message := "WebSocket is not connected" },
     [])
  else
    let key := getSubscriptionKey exchangeType token
    let outs := sendSubscriptionRequest c correlationId FeedMode.LTP
      [{ exchangeType := exchangeType, tokens := [token] }] Action.UNSUBSCRIBE
    ({ c with subscriptions := mapDelete c.subscriptions key },
     Except.ok { status := true, message := "Unsubscription request sent" },
     outs)

/-! ### `resubscribe` and its batching loops -/

/-- Nested insertion-ordered grouping of registry values by feed mode and
then by exchange type (the `Map<FeedMode, Map<ExchangeType, string[]>>`
built by `resubscribe`). -/
def addModeEntry :
    List (Int × List (Int × List String)) → Int → Int → String →
    List (Int × List (Int × List String))
  | [], m, e, t => [(m, [(e, [t])])]
  | (m', em) :: rest, m, e, t =>
    if m' = m then (m', groupAdd em e t) :: rest
    else (m', em) :: addModeEntry rest m e t

/-- Group all registry entries by mode then exchange, in iteration order. -/
def groupSubsByMode (subs : List SubscriptionData) :
    List (Int × List (Int × List String)) :=
  subs.foldl (fun acc sub => addModeEntry acc sub.feedMode sub.exchangeType
    sub.token) []

/-- The DEPTH_20 splitting loop of `resubscribe`
(`for (i = 0; i < n; i += 50) slice(i, i + 50)`), with each batch paired
with its index `i / 50`.  The fuel argument bounds the iteration count and
is instantiated with the token count. -/
def depthChunksAux : Nat → Nat → List String → List (Nat × List String)
  | 0, _, _ => []
  | fuel + 1, idx, l =>
    if l = [] then []
    else (idx, l.take 50) :: depthChunksAux fuel (idx + 1) (l.drop 50)

/-- All 50-token DEPTH_20 batches of a token list, with batch indices. -/
def depthChunks (l : List String) : List (Nat × List String) :=
  depthChunksAux l.length 0 l

/-- The inner batch-building loop of `resubscribe` for non-DEPTH_20 modes:
take whole exchanges while they fit in the remaining capacity, else split
the exchange at the capacity boundary; returns the batch and the remaining
token list. -/
def takeBatch : Nat → List TokenGroup → List TokenGroup × List TokenGroup
  | _, [] => ([], [])
  | cap, g :: rest =>
    if cap = 0 then ([], g :: rest)
    else if g.tokens.length ≤ cap then
      let p := takeBatch (cap - g.tokens.length) rest
      (g :: p.1, p.2)
    else
      ([{ exchangeType := g.exchangeType, tokens := g.tokens.take cap }],
       { exchangeType := g.exchangeType, tokens := g.tokens.drop cap } :: rest)

/-- Termination measure of the outer batching loop: total token count plus
group count. -/
def weight (l : List TokenGroup) : Nat :=
  l.foldl (fun acc g => acc + g.tokens.length + 1) 0

/-- The outer batching loop of `resubscribe` for non-DEPTH_20 modes,
batch size 200.  Fuel-driven so the definition computes by kernel
reduction; `weight l` fuel is always sufficient (proved below). -/
def batchAllAux : Nat → List TokenGroup → List (List TokenGroup)
  | 0, _ => []
  | fuel + 1, l =>
    if l = [] then []
    else
      let p := takeBatch 200 l
      let rest := batchAllAux fuel p.2
      if p.1 = [] then rest else p.1 :: rest

/-- All batches of at most 200 tokens produced by the `resubscribe` loop. -/
def batchAll (l : List TokenGroup) : List (List TokenGroup) :=
  batchAllAux (weight l) l

/-- The per-mode body of `resubscribe`. -/
def resubMode (c : WSClient) (mode : Int) (em : List (Int × List String)) :
    List Output :=
  if mode = FeedMode.DEPTH_20 then
    let nseCmTokens := (groupGet em ExchangeType.NSE_CM).getD []
    if nseCmTokens.length > 50 then
      (depthChunks nseCmTokens).foldl
        (fun acc p => acc ++ sendSubscriptionRequest c
          ("resubscribe-depth20-" ++ toString p.1) mode
          [{ exchangeType := ExchangeType.NSE_CM, tokens := p.2 }]
          Action.SUBSCRIBE) []
    else if nseCmTokens.length > 0 then
      sendSubscriptionRequest c "resubscribe-depth20" mode
        [{ exchangeType := ExchangeType.NSE_CM, tokens := nseCmTokens }]
        Action.SUBSCRIBE
    else []
  else
    let tokenList := em.map (fun g => { exchangeType := g.1, tokens := g.2 : TokenGroup })
    ((batchAll tokenList).enum).foldl
      (fun acc p => acc ++ sendSubscriptionRequest c
        ("resubscribe-mode" ++ toString mode ++ "-" ++ toString p.1) mode p.2
        Action.SUBSCRIBE) []

/-- `resubscribe`: a no-op on an empty registry; otherwise replay every
registry entry, grouped by feed mode then exchange and batched.  The
registry itself is read, never written. -/
def resubscribe (c : WSClient) : WSClient × List Output :=
  if c.subscriptions = [] then (c, [])
  else
    let byMode := groupSubsByMode (c.subscriptions.map Prod.snd)
    (c, byMode.foldl (fun acc g => acc ++ resubMode c g.1 g.2) [])

/-! ### Tick emission (tail of `parseBinaryMessage`) -/

/-- Emission channels produced for one decoded tick: the generic `tick`
channel, then the subscription-specific channel keyed by the correlation id
of the matching registry entry, if any. -/
def tickChannels (subscriptions : List (String × SubscriptionData)) (t : Tick) :
    List String :=
  "tick" ::
    (match mapGet subscriptions (getSubscriptionKey t.exchangeType t.token) with
     | some sub => ["tick:" ++ sub.correlationId]
     | none => [])

/-- The binary-frame path of the `message` handler: decode the buffer
(`parseBinaryMessage` with its internal `try`/`catch`) and emit; a frame
whose decoding throws is logged and dropped, emitting nothing. -/
def handleBinaryMessage (subscriptions : List (String × SubscriptionData))
    (data : List Nat) : List String :=
  match parseBinaryMessage data with
  | none => []
  | some t => tickChannels subscriptions t

/-- Processing a whole sequence of incoming binary frames: each frame is
handled independently (the registry is not modified by decoding). -/
def processFrames (subscriptions : List (String × SubscriptionData))
    (frames : List (List Nat)) : List (List String) :=
  frames.map (handleBinaryMessage subscriptions)


/-! ## Order-status stream client (`OrderStatusWebSocket`)

Same modelling conventions as the market-data client.  JavaScript string
truthiness (`x && ...`, `x || y`) is modelled by comparison with the empty
string. -/

/-- The only field of the frame's `orderData` the client inspects. -/
structure OSOrderData where
  orderid : String
  deriving DecidableEq, Repr

/-- A parsed `OrderStatusResponse` frame: `user-id`, `status-code`,
`order-status`, `error-message` and the nested order data. -/
structure OSMessage where
  userId : String
  statusCode : String
  orderStatus : String
  errorMessage : String
  orderData : Option OSOrderData
  deriving DecidableEq, Repr

/-- The mutable fields of `OrderStatusWebSocket`. -/
structure OSClient where
  connectionState : ConnectionState
  reconnectAttempts : Nat
  maxReconnectAttempts : Nat
  reconnectInterval : Nat
  heartbeatActive : Bool
  wsPresent : Bool
  wsOpen : Bool
  clientCode : String
  deriving DecidableEq, Repr

/-- Order-status client as constructed. -/
def initialOSClient : OSClient :=
  { connectionState := ConnectionState.DISCONNECTED
    reconnectAttempts := 0
    maxReconnectAttempts := 5
    reconnectInterval := 5000
    heartbeatActive := false
    wsPresent := false
    wsOpen := false
    clientCode := "" }

/-- `OrderStatusWebSocket.disconnect()`. -/
def osDisconnect (c : OSClient) : OSClient × List Output :=
  if c.connectionState = ConnectionState.DISCONNECTED then (c, [])
  else
    let c1 := { c with connectionState := ConnectionState.DISCONNECTING,
                       heartbeatActive := false }
    if c1.wsPresent then
      ({ c1 with wsPresent := false, wsOpen := false,
                 connectionState := ConnectionState.DISCONNECTED },
       [Output.closeTransport, Output.emit "disconnect"])
    else (c1, [])

/-- `OrderStatusWebSocket.attemptReconnect`. -/
def osAttemptReconnect (c : OSClient) : OSClient × List Output :=
  if c.reconnectAttempts ≥ c.maxReconnectAttempts then
    (c, [Output.emit "reconnect_failed"])
  else
    ({ c with reconnectAttempts := c.reconnectAttempts + 1 },
     [Output.emit "reconnecting", Output.scheduleReconnect c.reconnectInterval])

/-- The `close` handler of `OrderStatusWebSocket.connect`: stop heartbeat,
transition to DISCONNECTED, emit `disconnect`, then `attemptReconnect` —
unconditionally, whatever caused the closure. -/
def osCloseHandler (c : OSClient) : OSClient × List Output :=
  let c1 := { c with heartbeatActive := false,
                     connectionState := ConnectionState.DISCONNECTED,
                     wsOpen := false }
  let step := osAttemptReconnect c1
  (step.1, Output.emit "disconnect" :: step.2)

/-- The `open` handler of `OrderStatusWebSocket.connect`. -/
def osOpenHandler (c : OSClient) : OSClient × List Output :=
  ({ c with connectionState := ConnectionState.CONNECTED,
            reconnectAttempts := 0,
            heartbeatActive := true,
            wsOpen := true },
   [Output.emit "connected"])

/-- Handling of one successfully JSON-parsed order-status frame (the body
of the `message` handler): cache the client code from the
connection-acknowledgment status `AB00`; a frame whose embedded
`status-code` is not `"200"` is emitted as `error` and, for the codes 401,
403 and 429, additionally triggers a local `disconnect()`; a `"200"` frame
is emitted as `message` and fanned out as order events. -/
def osHandleFrame (c : OSClient) (m : OSMessage) : OSClient × List Output :=
  let c1 := if m.orderStatus = "AB00" then { c with clientCode := m.userId }
            else c
  if m.statusCode ≠ "200" then
    let errOut := Output.emitError m.statusCode
      (if m.errorMessage = "" then "Unknown error" else m.errorMessage)
    if m.statusCode = "401" ∨ m.statusCode = "403" ∨ m.statusCode = "429" then
      let step := osDisconnect c1
      (step.1, errOut :: step.2)
    else (c1, [errOut])
  else
    let orderEmits :=
      if m.orderStatus ≠ "" ∧ m.orderStatus ≠ "AB00" then
        [Output.emit "order-update", Output.emit ("order-" ++ m.orderStatus)] ++
          (match m.orderData with
           | some od => if od.orderid ≠ "" then [Output.emit ("order-" ++ od.orderid)]
                        else []
           | none => [])
      else []
    (c1, Output.emit "message" :: orderEmits)

/-- One text websocket message delivered to the order-status `message`
handler: the literal heartbeat reply, an unparseable text (JSON parse
failure, logged and ignored), or a parsed frame. -/
inductive OSText where
  | pong
  | malformed
  | frame (m : OSMessage)
  deriving DecidableEq, Repr

/-- The full `message` handler of `OrderStatusWebSocket.connect`. -/
def osHandleMessage (c : OSClient) : OSText → OSClient × List Output
  | OSText.pong => (c, [])
  | OSText.malformed => (c, [])
  | OSText.frame m => osHandleFrame c m


/-! ## Auxiliary observation functions and concrete test fixtures -/

/-- The wire frames among a method's outputs. -/
def sentFrames (outs : List Output) : List WebSocketRequest :=
  outs.filterMap fun o =>
    match o with
    | Output.sendFrame req => some req
    | _ => none

/-- Total token count of one request frame. -/
def frameTokenCount (req : WebSocketRequest) : Nat :=
  req.tokenList.foldl (fun acc g => acc + g.tokens.length) 0

/-- Total token count of a token list. -/
def tcount (l : List TokenGroup) : Nat :=
  l.foldl (fun acc g => acc + g.tokens.length) 0

/-- The `(exchange, token)` pairs of a token list, in order. -/
def tokensOfTG (l : List TokenGroup) : List (Int × String) :=
  l.flatMap fun g => g.tokens.map fun t => (g.exchangeType, t)

/-- A feed mode that is one of the four `FeedMode` enum values. -/
def validMode (m : Int) : Prop :=
  m = FeedMode.LTP ∨ m = FeedMode.QUOTE ∨ m = FeedMode.SNAP_QUOTE ∨
    m = FeedMode.DEPTH_20

instance (m : Int) : Decidable (validMode m) := by
  unfold validMode; infer_instance

/-- A market-data client in the steady CONNECTED state. -/
def connectedClient : WSClient :=
  { initialClient with
      connectionState := ConnectionState.CONNECTED
      heartbeatActive := true
      wsPresent := true
      wsOpen := true }

/-- A market-data client in the ERROR state with no socket handle: the
state produced by the `catch` branch of `connect()` when the
`new WebSocket(...)` constructor throws before the handle is assigned. -/
def ctorFailedClient : WSClient :=
  { initialClient with
      connectionState := ConnectionState.ERROR
      subscriptions :=
        [("1:2885", { correlationId := "sub1", exchangeType := 1,
                      token := "2885", feedMode := 1 })] }

/-- A CONNECTING market-data client holding 51 queued DEPTH_20 NSE_CM
subscriptions (each queued individually through `subscribe`, which imposes
no count limit on the queue). -/
def pending51Client : WSClient :=
  { initialClient with
      connectionState := ConnectionState.CONNECTING
      wsPresent := true
      pendingSubscriptions := (List.range 51).map fun i =>
        { correlationId := "d" ++ toString i, exchangeType := 1,
          token := "t" ++ toString i, feedMode := 4 } }

/-- An order-status client in the steady CONNECTED state. -/
def connectedOSClient : OSClient :=
  { initialOSClient with
      connectionState := ConnectionState.CONNECTED
      heartbeatActive := true
      wsPresent := true
      wsOpen := true
      clientCode := "A123" }

/-- An order-status frame whose embedded status code is the unauthorized
401 code. -/
def frame401 : OSMessage :=
  { userId := "A123", statusCode := "401", orderStatus := "",
    errorMessage := "Invalid Token", orderData := none }

/-- A 51-byte LTP-mode frame: mode 1, exchange type NSE_CM, token "X",
raw last-traded price 45000 (bytes 200, 175 at offsets 43, 44). -/
def ltpBuf : List Nat :=
  (List.range 51).map fun i =>
    if i = 0 then 1 else if i = 1 then 1 else if i = 2 then 88
    else if i = 43 then 200 else if i = 44 then 175 else 0

/-- A 443-byte DEPTH_20 frame for exchange type NSE_CM with a raw price of
100 in the first best-bid record (offset 47). -/
def depth20NseBuf : List Nat :=
  (List.range 443).map fun i =>
    if i = 0 then 4 else if i = 1 then 1 else if i = 47 then 100 else 0

/-- The same 443-byte DEPTH_20 layout with exchange-type byte BSE_CM. -/
def depth20BseBuf : List Nat :=
  (List.range 443).map fun i =>
    if i = 0 then 4 else if i = 1 then 3 else if i = 47 then 100 else 0

/-- The tick decoded from `depth20BseBuf`: header fields only (the 20-level
arrays are not extracted for a non-NSE_CM exchange type). -/
def depthBseTick : Tick :=
  { mode := 4, exchangeType := 3, token := "",
    sequenceNumber := some 0, exchangeTimestamp := some 0 }

/-- The tick decoded from `depth20NseBuf`: full 20-level arrays, with the
raw (undivided) price 100 in the first bid record. -/
def depthNseTick : Tick :=
  { mode := 4, exchangeType := 1, token := "",
    sequenceNumber := some 0, exchangeTimestamp := some 0,
    dummyPlaceholder := some 0,
    bestBids := some ({ quantity := 0, price := 100, numOrders := 0 } ::
      List.replicate 19 { quantity := 0, price := 0, numOrders := 0 }),
    bestAsks := some (List.replicate 20
      { quantity := 0, price := 0, numOrders := 0 }) }

/-- A DEPTH_20-shaped tick with no `lastTradedPrice`, as raw extraction
produces for that mode. -/
def depthHeaderTick : Tick :=
  { mode := 4, exchangeType := 1, token := "x",
    bestBids := some [{ quantity := 5, price := 7, numOrders := 2 }] }

/-- A CONNECTING client with an open transport and two queued
subscriptions of different feed modes. -/
def pendingTwoClient : WSClient :=
  { initialClient with
      connectionState := ConnectionState.CONNECTING
      wsPresent := true
      wsOpen := true
      pendingSubscriptions :=
        [{ correlationId := "a", exchangeType := 1, token := "2885",
           feedMode := 2 },
         { correlationId := "b", exchangeType := 3, token := "500325",
           feedMode := 1 }] }

/-- A two-symbol batch for `subscribeMultiple`. -/
def c10Symbols : List SymbolRef :=
  [{ exchangeType := 1, token := "2885" }, { exchangeType := 2, token := "55" }]

/-- The first symbol of `c10Symbols`. -/
def c10Sym : SymbolRef := { exchangeType := 1, token := "2885" }

/-- A tick for `c10Sym`. -/
def c10Tick : Tick := { mode := 1, exchangeType := 1, token := "2885" }

/-- 51 NSE_CM symbols, one over the DEPTH_20 batch limit. -/
def symbols51 : List SymbolRef :=
  (List.range 51).map fun i => { exchangeType := 1, token := "t" ++ toString i }

/-- A QUOTE tick for the currency-derivative exchange with raw integer
price fields, before normalization. -/
def cdeQuoteTick : Tick :=
  { mode := 2, exchangeType := 13, token := "c",
    lastTradedPrice := some 45000, openPrice := some 20000000,
    lastTradedQuantity := some 7, averageTradedPrice := some 333,
    totalBuyQuantity := some (JSDouble.finite 9) }


/-! # Helper lemmas -/

set_option maxRecDepth 100000

theorem normalizeTick_of_ltp_none {t : Tick} (h : t.lastTradedPrice = none) :
    normalizeTick t = t := by
  unfold normalizeTick
  rw [h]

theorem normalizeTick_mode (t : Tick) : (normalizeTick t).mode = t.mode := by
  unfold normalizeTick
  cases h : t.lastTradedPrice <;> rfl

theorem normalizeTick_exchangeType (t : Tick) :
    (normalizeTick t).exchangeType = t.exchangeType := by
  unfold normalizeTick
  cases h : t.lastTradedPrice <;> rfl

theorem parseLTPFields_base {data : List Nat} {b t : Tick}
    (h : parseLTPFields data b = some t) :
    t.mode = b.mode ∧ t.exchangeType = b.exchangeType := by
  simp only [parseLTPFields, bind, Option.bind_eq_some, pure,
    Option.some.injEq] at h
  obtain ⟨a1, -, rfl⟩ := h
  exact ⟨rfl, rfl⟩

theorem parseQuoteFields_base {data : List Nat} {b t : Tick}
    (h : parseQuoteFields data b = some t) :
    t.mode = b.mode ∧ t.exchangeType = b.exchangeType := by
  simp only [parseQuoteFields, bind, Option.bind_eq_some, pure,
    Option.some.injEq] at h
  obtain ⟨a1, -, a2, -, a3, -, a4, -, a5, -, a6, -, a7, -, a8, -, a9, -,
    a10, -, rfl⟩ := h
  exact ⟨rfl, rfl⟩

theorem parseSnapQuoteFields_base {data : List Nat} {b t : Tick}
    (h : parseSnapQuoteFields data b = some t) :
    t.mode = b.mode ∧ t.exchangeType = b.exchangeType := by
  simp only [parseSnapQuoteFields, bind, Option.bind_eq_some, pure,
    Option.some.injEq] at h
  obtain ⟨t1, ht1, a1, -, a2, -, a3, -, a4, -, a5, -, a6, -, a7, -, a8, -,
    rfl⟩ := h
  have hq := parseQuoteFields_base ht1
  exact ⟨hq.1, hq.2⟩

theorem parseDepth20Fields_spec {data : List Nat} {b t : Tick}
    (h : parseDepth20Fields data b = some t) :
    t.mode = b.mode ∧ t.exchangeType = b.exchangeType ∧
      t.lastTradedPrice = b.lastTradedPrice ∧
      (b.exchangeType ≠ ExchangeType.NSE_CM → t = b) := by
  unfold parseDepth20Fields at h
  split at h
  case isTrue hc =>
    simp only [bind, Option.bind_eq_some, pure, Option.some.injEq] at h
    obtain ⟨a1, -, a2, -, a3, -, a4, -, rfl⟩ := h
    exact ⟨rfl, rfl, rfl, fun hne => absurd hc.1 hne⟩
  case isFalse hc =>
    simp only [pure, Option.some.injEq] at h
    subst h
    exact ⟨rfl, rfl, rfl, fun _ => rfl⟩

/-- Raw extraction of a DEPTH_20 frame never yields a `lastTradedPrice`,
and yields no 20-level arrays when the exchange type is not NSE_CM. -/
theorem rawParse_depth20 {data : List Nat} {t : Tick}
    (h : rawParse data = some t) (hm : t.mode = FeedMode.DEPTH_20) :
    t.lastTradedPrice = none ∧
      (t.exchangeType ≠ ExchangeType.NSE_CM →
        t.bestBids = none ∧ t.bestAsks = none) := by
  unfold rawParse at h
  simp only [bind, Option.bind_eq_some] at h
  obtain ⟨mode, hmode, exch, hexch, tok, htok, seq, hseq, ts, hts, h⟩ := h
  split at h
  case isTrue h1 =>
    have hb := (parseLTPFields_base h).1
    rw [hm, h1] at hb
    simp [FeedMode.DEPTH_20, FeedMode.LTP] at hb
  case isFalse h1 =>
    split at h
    case isTrue h2 =>
      have hb := (parseQuoteFields_base h).1
      rw [hm, h2] at hb
      simp [FeedMode.DEPTH_20, FeedMode.QUOTE] at hb
    case isFalse h2 =>
      split at h
      case isTrue h3 =>
        have hb := (parseSnapQuoteFields_base h).1
        rw [hm, h3] at hb
        simp [FeedMode.DEPTH_20, FeedMode.SNAP_QUOTE] at hb
      case isFalse h3 =>
        split at h
        case isTrue h4 =>
          have hs := parseDepth20Fields_spec h
          refine ⟨hs.2.2.1, fun hne => ?_⟩
          have ht := hs.2.2.2 (by rw [hs.2.1] at hne; exact hne)
          subst ht
          exact ⟨rfl, rfl⟩
        case isFalse h4 =>
          simp only [pure, Option.some.injEq] at h
          subst h
          exact absurd hm h4

/-! # Claims -/

/-- C2 (code_bug): the claim "after an explicit `disconnect()` no automatic
reconnect attempt is ever scheduled" is contradicted by the code.  After an
explicit `disconnect()` on a CONNECTED client (which closes the socket),
the socket's `close` event fires on the still-registered handler, which
unconditionally calls `attemptReconnect`: a `reconnecting` signal is
emitted and a delayed (5000 ms) `connect()` retry is scheduled even though
the closure was caused by `disconnect()`. -/
theorem c2_reconnect_scheduled_after_explicit_disconnect :
    (disconnect connectedClient).2 =
      [Output.closeTransport, Output.emit "disconnect"] ∧
    (closeHandler (disconnect connectedClient).1).2 =
      [Output.emit "disconnect", Output.emit "reconnecting",
       Output.scheduleReconnect 5000] := by decide

/-- C8 (code_bug): a received order-status frame with embedded status 401
is emitted as `error` (not as an order event) and triggers an immediate
local disconnect — but the claim's final clause "no automatic retry with
the same credentials follows that disconnect" is contradicted by the code:
when the closed socket's `close` event fires, the handler unconditionally
schedules a delayed reconnect, which will reuse the stored `jwtToken`. -/
theorem c8_auth_error_reconnects_after_disconnect :
    (osHandleFrame connectedOSClient frame401).2 =
      [Output.emitError "401" "Invalid Token", Output.closeTransport,
       Output.emit "disconnect"] ∧
    (osCloseHandler (osHandleFrame connectedOSClient frame401).1).2 =
      [Output.emit "disconnect", Output.emit "reconnecting",
       Output.scheduleReconnect 5000] := by decide

/-- C3 (counterexample): a well-formed 443-byte DEPTH_20 frame whose
exchange-type byte is BSE_CM decodes with NO best-bid/best-ask arrays —
the decoder does not extract the 20-level layout "unconditionally,
regardless of the frame's exchange-type byte" as the claim states. -/
theorem c3_counterexample :
    (parseBinaryMessage depth20BseBuf).map Tick.mode =
      some FeedMode.DEPTH_20 ∧
    (parseBinaryMessage depth20BseBuf).map Tick.exchangeType =
      some ExchangeType.BSE_CM ∧
    (parseBinaryMessage depth20BseBuf).map Tick.bestBids = some none ∧
    (parseBinaryMessage depth20BseBuf).map Tick.bestAsks = some none := by
  decide

/-- C3 (amended): the decoder extracts the 20-level arrays of a DEPTH_20
frame only when the exchange-type byte is the NSE cash-market code (and
the buffer holds the full 443-byte layout); a DEPTH_20 frame with any
other exchange type decodes to header fields only, with both arrays
absent.  The second conjunct shows the NSE_CM extraction does happen on a
full 443-byte frame (20 entries per side). -/
theorem c3_depth20_nse_only_amended :
    (∀ (data : List Nat) (t : Tick), parseBinaryMessage data = some t →
      t.mode = FeedMode.DEPTH_20 → t.exchangeType ≠ ExchangeType.NSE_CM →
      t.bestBids = none ∧ t.bestAsks = none) ∧
    (parseBinaryMessage depth20NseBuf).map
        (fun t => (t.bestBids.map List.length, t.bestAsks.map List.length)) =
      some (some 20, some 20) := by
  constructor
  · intro data t h hm hne
    simp only [parseBinaryMessage, Option.map_eq_some'] at h
    obtain ⟨t0, h0, rfl⟩ := h
    rw [normalizeTick_mode] at hm
    rw [normalizeTick_exchangeType] at hne
    have hd := rawParse_depth20 h0 hm
    rw [normalizeTick_of_ltp_none hd.1]
    exact hd.2 hne
  · decide

/-- C3 (witness for the amended theorem). -/
theorem c3_depth20_nse_only_amended_witness :
    depthBseTick.bestBids = none ∧ depthBseTick.bestAsks = none :=
  c3_depth20_nse_only_amended.1 depth20BseBuf depthBseTick (by decide)
    (by decide) (by decide)


/-- C1 (counterexample): a 443-byte DEPTH_20 frame for NSE_CM carrying a
raw best-bid price of 100 decodes with that price exposed as 100 — not
divided by the 100 scale factor the claim requires for every
best-bid/best-ask entry "including the 20-level DEPTH_20 arrays". -/
theorem c1_counterexample :
    ((parseBinaryMessage depth20NseBuf).bind
        (fun t => t.bestBids.bind List.head?)).map DepthEntry.price =
      some 100 ∧
    (parseBinaryMessage depth20NseBuf).map Tick.exchangeType =
      some ExchangeType.NSE_CM ∧
    (100 : ℚ) / divisor ExchangeType.NSE_CM ≠ 100 := by
  refine ⟨by decide, by decide, ?_⟩
  norm_num [divisor, ExchangeType.NSE_CM, ExchangeType.CDE_FO]

/-- C1 (amended): the price-scale division is applied exactly when the
decoded tick carries a `lastTradedPrice` (LTP/QUOTE/SNAP_QUOTE frames of at
least 51 bytes): then every listed absolute-price field and every
best-bid/best-ask price is divided by 10,000,000 for the
currency-derivative exchange code and by 100 otherwise, while quantities,
order counts, percentage fields and `averageTradedPrice` are untouched.
A DEPTH_20 tick never carries a `lastTradedPrice`, so it is exposed exactly
as raw-extracted, with undivided prices. -/
theorem c1_price_scaling_amended :
    (∀ t : Tick, t.lastTradedPrice = none → normalizeTick t = t) ∧
    (∀ (t : Tick) (p : ℚ), t.lastTradedPrice = some p →
      (normalizeTick t).lastTradedPrice = some (p / divisor t.exchangeType) ∧
      (normalizeTick t).openPrice =
        t.openPrice.map (· / divisor t.exchangeType) ∧
      (normalizeTick t).highPrice =
        t.highPrice.map (· / divisor t.exchangeType) ∧
      (normalizeTick t).lowPrice =
        t.lowPrice.map (· / divisor t.exchangeType) ∧
      (normalizeTick t).closePrice =
        t.closePrice.map (· / divisor t.exchangeType) ∧
      (normalizeTick t).upperCircuitLimit =
        t.upperCircuitLimit.map (· / divisor t.exchangeType) ∧
      (normalizeTick t).lowerCircuitLimit =
        t.lowerCircuitLimit.map (· / divisor t.exchangeType) ∧
      (normalizeTick t).fiftyTwoWeekHighPrice =
        t.fiftyTwoWeekHighPrice.map (· / divisor t.exchangeType) ∧
      (normalizeTick t).fiftyTwoWeekLowPrice =
        t.fiftyTwoWeekLowPrice.map (· / divisor t.exchangeType) ∧
      (normalizeTick t).bestBids = t.bestBids.map (List.map fun b =>
        { b with price := b.price / divisor t.exchangeType }) ∧
      (normalizeTick t).bestAsks = t.bestAsks.map (List.map fun a =>
        { a with price := a.price / divisor t.exchangeType }) ∧
      (normalizeTick t).lastTradedQuantity = t.lastTradedQuantity ∧
      (normalizeTick t).averageTradedPrice = t.averageTradedPrice ∧
      (normalizeTick t).volumeTradedForTheDay = t.volumeTradedForTheDay ∧
      (normalizeTick t).totalBuyQuantity = t.totalBuyQuantity ∧
      (normalizeTick t).totalSellQuantity = t.totalSellQuantity ∧
      (normalizeTick t).openInterestChangePercent =
        t.openInterestChangePercent) ∧
    (∀ (data : List Nat) (t : Tick), parseBinaryMessage data = some t →
      t.mode = FeedMode.DEPTH_20 → rawParse data = some t) ∧
    (divisor ExchangeType.CDE_FO = 10000000 ∧
      ∀ e : Int, e ≠ ExchangeType.CDE_FO → divisor e = 100) := by
  refine ⟨?_, ?_, ?_, by decide, ?_⟩
  · intro t h
    exact normalizeTick_of_ltp_none h
  · intro t p h
    unfold normalizeTick
    rw [h]
    refine ⟨rfl, rfl, rfl, rfl, rfl, rfl, rfl, rfl, rfl, rfl, rfl, rfl,
      rfl, rfl, rfl, rfl, rfl⟩
  · intro data t h hm
    simp only [parseBinaryMessage, Option.map_eq_some'] at h
    obtain ⟨t0, h0, rfl⟩ := h
    rw [normalizeTick_mode] at hm
    rw [normalizeTick_of_ltp_none (rawParse_depth20 h0 hm).1]
    exact h0
  · intro e he
    simp [divisor, he]

/-- C1 (witness for the amended theorem): a DEPTH_20-shaped tick passes
through normalization unchanged; a currency-derivative QUOTE tick has its
price fields divided by 10,000,000 and its quantities untouched; the NSE
DEPTH_20 frame decodes to its raw extraction. -/
theorem c1_price_scaling_amended_witness :
    normalizeTick depthHeaderTick = depthHeaderTick ∧
    (normalizeTick cdeQuoteTick).openPrice =
      cdeQuoteTick.openPrice.map (· / divisor cdeQuoteTick.exchangeType) ∧
    (normalizeTick cdeQuoteTick).lastTradedQuantity =
      cdeQuoteTick.lastTradedQuantity ∧
    rawParse depth20NseBuf = some depthNseTick ∧
    divisor ExchangeType.BSE_CM = 100 :=
  ⟨c1_price_scaling_amended.1 depthHeaderTick rfl,
   (c1_price_scaling_amended.2.1 cdeQuoteTick 45000 rfl).2.1,
   (c1_price_scaling_amended.2.1 cdeQuoteTick 45000
     rfl).2.2.2.2.2.2.2.2.2.2.2.1,
   c1_price_scaling_amended.2.2.1 depth20NseBuf depthNseTick (by decide)
     (by decide),
   c1_price_scaling_amended.2.2.2.2 ExchangeType.BSE_CM (by decide)⟩


/-! ### Map lemmas -/

theorem mapGet_mapSet_self {α : Type} (m : List (String × α)) (k : String)
    (v : α) : mapGet (mapSet m k v) k = some v := by
  induction m with
  | nil => simp [mapSet, mapGet]
  | cons p rest ih =>
    obtain ⟨k', v'⟩ := p
    by_cases h : k' = k
    · simp [mapSet, mapGet, h]
    · simp [mapSet, mapGet, h, ih]

theorem mapGet_mapSet_ne {α : Type} (m : List (String × α)) (k q : String)
    (v : α) (h : ¬ k = q) : mapGet (mapSet m k v) q = mapGet m q := by
  induction m with
  | nil => simp [mapSet, mapGet, h]
  | cons p rest ih =>
    obtain ⟨k', v'⟩ := p
    by_cases h' : k' = k
    · subst h'
      simp [mapSet, mapGet, h]
    · simp only [mapSet, if_neg h']
      by_cases h'' : k' = q
      · simp [mapGet, h'']
      · simp [mapGet, h'', ih]

theorem mapGet_foldl_mapSet_of_notmem {α β : Type} (l : List β)
    (kf : β → String) (vf : β → α) (m : List (String × α)) (q : String)
    (h : ∀ x ∈ l, ¬ kf x = q) :
    mapGet (l.foldl (fun acc x => mapSet acc (kf x) (vf x)) m) q =
      mapGet m q := by
  induction l generalizing m with
  | nil => rfl
  | cons y ys ih =>
    rw [List.foldl_cons, ih _ (fun x hx => h x (List.mem_cons_of_mem y hx)),
      mapGet_mapSet_ne _ _ _ _ (h y (List.mem_cons_self y ys))]

theorem mapGet_foldl_mapSet_of_mem {α β : Type} (l : List β)
    (kf : β → String) (vf : β → α) (m : List (String × α)) (s : β)
    (hs : s ∈ l) :
    ∃ x, x ∈ l ∧ kf x = kf s ∧
      mapGet (l.foldl (fun acc x => mapSet acc (kf x) (vf x)) m) (kf s) =
        some (vf x) := by
  induction l generalizing m s with
  | nil => cases hs
  | cons y ys ih =>
    rw [List.foldl_cons]
    by_cases hq : ∃ x, x ∈ ys ∧ kf x = kf s
    · obtain ⟨x0, hx0, hk0⟩ := hq
      obtain ⟨x, hx, hk, heq⟩ := ih (mapSet m (kf y) (vf y)) x0 hx0
      rw [hk0] at heq
      exact ⟨x, List.mem_cons_of_mem y hx, hk.trans hk0, heq⟩
    · have hsy : s = y := by
        rcases List.mem_cons.mp hs with h | h
        · exact h
        · exact absurd ⟨s, h, rfl⟩ hq
      subst hsy
      rw [mapGet_foldl_mapSet_of_notmem ys kf vf _ (kf s)
        (fun x hx hk => hq ⟨x, hx, hk⟩)]
      exact ⟨s, List.mem_cons_self s ys, rfl, mapGet_mapSet_self m (kf s) _⟩

theorem mapGet_foldl_mapSet_of_mem_distinct {α β : Type} (l : List β)
    (kf : β → String) (vf : β → α) (m : List (String × α)) (s : β)
    (hs : s ∈ l) (hd : ∀ x ∈ l, kf x = kf s → x = s) :
    mapGet (l.foldl (fun acc x => mapSet acc (kf x) (vf x)) m) (kf s) =
      some (vf s) := by
  obtain ⟨x, hx, hk, heq⟩ := mapGet_foldl_mapSet_of_mem l kf vf m s hs
  rw [hd x hx hk] at heq
  exact heq

/-- The derived correlation id of `subscribeMultiple` is never the batch id
itself (it is strictly longer). -/
theorem derivedCorrelationId_ne (id : String) (s : SymbolRef) :
    ¬ derivedCorrelationId id s = id := by
  intro h
  have hl := congrArg String.length h
  simp only [derivedCorrelationId, String.length_append,
    show ("-").length = 1 from rfl] at hl
  omega

/-! ### Claims, continued -/

/-- C9 (confirmed): the binary-frame handler is a total function of the
buffer: every buffer either decodes to a tick (which is emitted on the
`tick` channel and on the matching subscription channel), or the caught
decoding failure drops the frame with no emission at all; a dropped frame
does not disturb the processing of subsequent frames.  Empty and truncated
buffers are concrete dropped cases. -/
theorem c9_decoder_never_throws :
    (∀ (subs : List (String × SubscriptionData)) (data : List Nat),
      (∃ t, parseBinaryMessage data = some t ∧
        handleBinaryMessage subs data = tickChannels subs t) ∨
      (parseBinaryMessage data = none ∧ handleBinaryMessage subs data = [])) ∧
    (∀ (subs : List (String × SubscriptionData)) (data : List Nat)
        (rest : List (List Nat)),
      processFrames subs (data :: rest) =
        handleBinaryMessage subs data :: processFrames subs rest) ∧
    parseBinaryMessage [] = none ∧ parseBinaryMessage [4, 1] = none := by
  refine ⟨?_, ?_, by decide, by decide⟩
  · intro subs data
    cases h : parseBinaryMessage data with
    | none => exact Or.inr ⟨rfl, by simp [handleBinaryMessage, h]⟩
    | some t => exact Or.inl ⟨t, rfl, by simp [handleBinaryMessage, h]⟩
  · intro subs data rest
    rfl

/-- C6 (confirmed): `subscribe` with DEPTH_20 and a non-NSE_CM exchange
fails synchronously with the descriptive validation error, changes no
state and sends nothing; with NSE_CM it resolves successfully.
`subscribeMultiple` with DEPTH_20 fails fast the same way when any symbol
is non-NSE_CM or the batch exceeds 50 tokens. -/
theorem c6_depth20_validation :
    (∀ (c : WSClient) (id tok : String) (ex : Int),
      ¬ ex = ExchangeType.NSE_CM →
      subscribe c id ex tok FeedMode.DEPTH_20 =
        (c, Except.error
          { status := false,
            message := "20-Depth Mode is available only for NSE_CM segment" },
          [])) ∧
    (∀ (c : WSClient) (id tok : String),
      ∃ msg, (subscribe c id ExchangeType.NSE_CM tok FeedMode.DEPTH_20).2.1 =
        Except.ok { status := true, message := msg }) ∧
    (∀ (c : WSClient) (id : String) (symbols : List SymbolRef)
        (s : SymbolRef), s ∈ symbols → ¬ s.exchangeType = ExchangeType.NSE_CM →
      subscribeMultiple c id symbols FeedMode.DEPTH_20 =
        (c, Except.error
          { status := false,
            message := "20-Depth Mode is available only for NSE_CM segment" },
          [])) ∧
    (∀ (c : WSClient) (id : String) (symbols : List SymbolRef),
      (∀ s ∈ symbols, s.exchangeType = ExchangeType.NSE_CM) →
      symbols.length > 50 →
      subscribeMultiple c id symbols FeedMode.DEPTH_20 =
        (c, Except.error
          { status := false,
            message :=
              "For 20-Depth Mode, the maximum limit is 50 tokens per connection" },
          [])) := by
  refine ⟨?_, ?_, ?_, ?_⟩
  · intro c id tok ex hex
    unfold subscribe
    rw [if_pos ⟨rfl, hex⟩]
  · intro c id tok
    unfold subscribe
    rw [if_neg (by simp)]
    by_cases hc : c.connectionState = ConnectionState.CONNECTED
    · rw [if_neg (by simp [hc])]
      exact ⟨"Subscription request sent", rfl⟩
    · rw [if_pos (by simp [hc])]
      exact ⟨"Subscription queued", rfl⟩
  · intro c id symbols s hs hex
    unfold subscribeMultiple
    rw [if_pos ⟨rfl, List.find?_isSome.mpr ⟨s, hs, by simpa using hex⟩⟩]
  · intro c id symbols hall hlen
    unfold subscribeMultiple
    rw [if_neg ?_, if_pos ⟨rfl, hlen⟩]
    intro hcond
    obtain ⟨x, hx, hpx⟩ := List.find?_isSome.mp hcond.2
    have hx1 := hall x hx
    simp [hx1] at hpx

/-- C6 (witness). -/
theorem c6_depth20_validation_witness :
    (subscribe connectedClient "i" ExchangeType.BSE_CM "99" FeedMode.DEPTH_20 =
      (connectedClient, Except.error
        { status := false,
          message := "20-Depth Mode is available only for NSE_CM segment" },
        [])) ∧
    (∃ msg, (subscribe connectedClient "i" ExchangeType.NSE_CM "99"
        FeedMode.DEPTH_20).2.1 = Except.ok { status := true, message := msg }) ∧
    (subscribeMultiple connectedClient "b"
        [{ exchangeType := 3, token := "99" }] FeedMode.DEPTH_20 =
      (connectedClient, Except.error
        { status := false,
          message := "20-Depth Mode is available only for NSE_CM segment" },
        [])) ∧
    (subscribeMultiple connectedClient "b" symbols51 FeedMode.DEPTH_20 =
      (connectedClient, Except.error
        { status := false,
          message :=
            "For 20-Depth Mode, the maximum limit is 50 tokens per connection" },
        [])) :=
  ⟨c6_depth20_validation.1 connectedClient "i" "99" ExchangeType.BSE_CM
     (by decide),
   c6_depth20_validation.2.1 connectedClient "i" "99",
   c6_depth20_validation.2.2.1 connectedClient "b" _
     { exchangeType := 3, token := "99" } (by simp) (by decide),
   c6_depth20_validation.2.2.2 connectedClient "b" symbols51 (by decide)
     (by decide)⟩


theorem disconnect_of_disconnected {c : WSClient}
    (h : c.connectionState = ConnectionState.DISCONNECTED) :
    disconnect c = (c, []) := by
  unfold disconnect
  rw [if_pos h]

theorem disconnect_of_wsPresent {c : WSClient}
    (h : ¬ c.connectionState = ConnectionState.DISCONNECTED)
    (hw : c.wsPresent = true) :
    disconnect c =
      ({ c with connectionState := ConnectionState.DISCONNECTED,
                heartbeatActive := false, pendingSubscriptions := [],
                subscriptions := [], wsPresent := false, wsOpen := false },
       [Output.closeTransport, Output.emit "disconnect"]) := by
  unfold disconnect
  rw [if_neg h]
  simp [hw]

/-- C7 (counterexample): from the ERROR state produced by a failed socket
construction (no `ws` handle), `disconnect()` leaves the state at
DISCONNECTING — it does not transition to DISCONNECTED, does not clear
the subscription registry, closes nothing and emits nothing, contrary to
the claim's "in every other state". -/
theorem c7_counterexample :
    ¬ ctorFailedClient.connectionState = ConnectionState.DISCONNECTED ∧
    (disconnect ctorFailedClient).1.connectionState =
      ConnectionState.DISCONNECTING ∧
    (disconnect ctorFailedClient).2 = [] ∧
    (disconnect ctorFailedClient).1.subscriptions =
      ctorFailedClient.subscriptions ∧
    ctorFailedClient.subscriptions ≠ [] := by decide

/-- C7 (amended): `disconnect()` is an idempotent no-op when already
DISCONNECTED.  From any other state in which a socket handle exists (every
state reachable without a socket-constructor failure), it stops the
heartbeat, drops the pending queue, clears the registry, closes the
transport, transitions to DISCONNECTED and emits `disconnect`; a second
`disconnect()` is then a no-op performing no second close. -/
theorem c7_disconnect_amended :
    (∀ c : WSClient, c.connectionState = ConnectionState.DISCONNECTED →
      disconnect c = (c, [])) ∧
    (∀ c : WSClient, ¬ c.connectionState = ConnectionState.DISCONNECTED →
      c.wsPresent = true →
      (disconnect c).1 =
        { c with connectionState := ConnectionState.DISCONNECTED,
                 heartbeatActive := false, pendingSubscriptions := [],
                 subscriptions := [], wsPresent := false, wsOpen := false } ∧
      (disconnect c).2 = [Output.closeTransport, Output.emit "disconnect"]) ∧
    (∀ c : WSClient, ¬ c.connectionState = ConnectionState.DISCONNECTED →
      c.wsPresent = true →
      disconnect (disconnect c).1 = ((disconnect c).1, [])) := by
  refine ⟨fun c h => disconnect_of_disconnected h, fun c h hw => ?_,
    fun c h hw => ?_⟩
  · rw [disconnect_of_wsPresent h hw]
    exact ⟨rfl, rfl⟩
  · apply disconnect_of_disconnected
    rw [disconnect_of_wsPresent h hw]

/-- C7 (witness for the amended theorem). -/
theorem c7_disconnect_amended_witness :
    disconnect initialClient = (initialClient, []) ∧
    (disconnect connectedClient).2 =
      [Output.closeTransport, Output.emit "disconnect"] ∧
    disconnect (disconnect connectedClient).1 =
      ((disconnect connectedClient).1, []) :=
  ⟨c7_disconnect_amended.1 initialClient rfl,
   (c7_disconnect_amended.2.1 connectedClient (by decide) (by decide)).2,
   c7_disconnect_amended.2.2 connectedClient (by decide) (by decide)⟩

/-- C10 (confirmed): `subscribeMultiple` stores every symbol — queued while
not connected, or recorded in the registry while connected — under the
derived correlation id `batchId-exchangeType-token`, never under `batchId`
itself; a tick for such a symbol is emitted on the channel
`tick:batchId-exchangeType-token`, and no targeted event is emitted on
`tick:batchId`. -/
theorem c10_derived_correlation_ids :
    (∀ (id : String) (s : SymbolRef), ¬ derivedCorrelationId id s = id) ∧
    (∀ (c : WSClient) (id : String) (symbols : List SymbolRef) (mode : Int),
      ¬ (mode = FeedMode.DEPTH_20 ∧
        (symbols.find? fun s =>
          s.exchangeType ≠ ExchangeType.NSE_CM).isSome) →
      ¬ (mode = FeedMode.DEPTH_20 ∧ symbols.length > 50) →
      ¬ c.connectionState = ConnectionState.CONNECTED →
      (subscribeMultiple c id symbols mode).1.pendingSubscriptions =
        c.pendingSubscriptions ++ symbols.map (fun s =>
          { correlationId := derivedCorrelationId id s,
            exchangeType := s.exchangeType, token := s.token,
            feedMode := mode })) ∧
    (∀ (c : WSClient) (id : String) (symbols : List SymbolRef) (mode : Int)
        (s : SymbolRef),
      ¬ (mode = FeedMode.DEPTH_20 ∧
        (symbols.find? fun s =>
          s.exchangeType ≠ ExchangeType.NSE_CM).isSome) →
      ¬ (mode = FeedMode.DEPTH_20 ∧ symbols.length > 50) →
      c.connectionState = ConnectionState.CONNECTED →
      s ∈ symbols →
      (∀ x ∈ symbols, getSubscriptionKey x.exchangeType x.token =
        getSubscriptionKey s.exchangeType s.token → x = s) →
      mapGet (subscribeMultiple c id symbols mode).1.subscriptions
          (getSubscriptionKey s.exchangeType s.token) =
        some { correlationId := derivedCorrelationId id s,
               exchangeType := s.exchangeType, token := s.token,
               feedMode := mode } ∧
      ∀ t : Tick, t.exchangeType = s.exchangeType → t.token = s.token →
        tickChannels (subscribeMultiple c id symbols mode).1.subscriptions t =
          ["tick", "tick:" ++ derivedCorrelationId id s] ∧
        ¬ ("tick:" ++ id) ∈
          tickChannels (subscribeMultiple c id symbols mode).1.subscriptions
            t) := by
  refine ⟨fun id s => derivedCorrelationId_ne id s, ?_, ?_⟩
  · intro c id symbols mode h1 h2 hc
    unfold subscribeMultiple
    rw [if_neg h1, if_neg h2, if_pos hc]
  · intro c id symbols mode s h1 h2 hc hs hd
    unfold subscribeMultiple
    rw [if_neg h1, if_neg h2, if_neg (fun hh => hh hc)]
    have hreg :
        mapGet (symbols.foldl (fun m x =>
            mapSet m (getSubscriptionKey x.exchangeType x.token)
              { correlationId := derivedCorrelationId id x,
                exchangeType := x.exchangeType, token := x.token,
                feedMode := mode : SubscriptionData }) c.subscriptions)
          (getSubscriptionKey s.exchangeType s.token) =
        some { correlationId := derivedCorrelationId id s,
               exchangeType := s.exchangeType, token := s.token,
               feedMode := mode } :=
      mapGet_foldl_mapSet_of_mem_distinct symbols
        (fun x => getSubscriptionKey x.exchangeType x.token)
        (fun x => { correlationId := derivedCorrelationId id x,
                    exchangeType := x.exchangeType, token := x.token,
                    feedMode := mode }) c.subscriptions s hs hd
    refine ⟨hreg, ?_⟩
    intro t ht1 ht2
    have hch : tickChannels (symbols.foldl (fun m x =>
          mapSet m (getSubscriptionKey x.exchangeType x.token)
            { correlationId := derivedCorrelationId id x,
              exchangeType := x.exchangeType, token := x.token,
              feedMode := mode : SubscriptionData }) c.subscriptions) t =
        ["tick", "tick:" ++ derivedCorrelationId id s] := by
      unfold tickChannels
      rw [ht1, ht2, hreg]
    refine ⟨hch, ?_⟩
    rw [hch]
    intro hmem
    rcases List.mem_cons.mp hmem with hh | hh
    · have := congrArg String.length hh
      simp only [String.length_append, show ("tick:").length = 5 from rfl,
        show ("tick").length = 4 from rfl] at this
      omega
    · have hh' := List.mem_singleton.mp hh
      have := congrArg String.length hh'
      simp only [String.length_append, derivedCorrelationId,
        show ("-").length = 1 from rfl] at this
      omega

/-- C10 (witness). -/
theorem c10_derived_correlation_ids_witness :
    mapGet (subscribeMultiple connectedClient "batch" c10Symbols
        1).1.subscriptions
        (getSubscriptionKey c10Sym.exchangeType c10Sym.token) =
      some { correlationId := derivedCorrelationId "batch" c10Sym,
             exchangeType := c10Sym.exchangeType, token := c10Sym.token,
             feedMode := 1 } ∧
    tickChannels (subscribeMultiple connectedClient "batch" c10Symbols
        1).1.subscriptions c10Tick =
      ["tick", "tick:" ++ derivedCorrelationId "batch" c10Sym] ∧
    ¬ ("tick:" ++ "batch") ∈
      tickChannels (subscribeMultiple connectedClient "batch" c10Symbols
        1).1.subscriptions c10Tick := by
  have h := c10_derived_correlation_ids.2.2 connectedClient "batch" c10Symbols
    1 c10Sym (by decide) (by decide) (by decide) (by decide) (by decide)
  exact ⟨h.1, (h.2 c10Tick rfl rfl).1, (h.2 c10Tick rfl rfl).2⟩


/-! ### Grouping lemmas (`groupAdd` accumulation) -/

theorem groupGet_groupAdd_self {κ α : Type} [DecidableEq κ]
    (G : List (κ × List α)) (k : κ) (v : α) :
    groupGet (groupAdd G k v) k = some ((groupGet G k).getD [] ++ [v]) := by
  induction G with
  | nil => simp [groupAdd, groupGet]
  | cons p rest ih =>
    obtain ⟨k', vs⟩ := p
    by_cases h : k' = k
    · subst h
      simp [groupAdd, groupGet]
    · simp [groupAdd, groupGet, h, ih]

theorem groupGet_groupAdd_ne {κ α : Type} [DecidableEq κ]
    (G : List (κ × List α)) (k q : κ) (v : α) (h : ¬ k = q) :
    groupGet (groupAdd G k v) q = groupGet G q := by
  induction G with
  | nil => simp [groupAdd, groupGet, h]
  | cons p rest ih =>
    obtain ⟨k', vs⟩ := p
    by_cases h' : k' = k
    · subst h'
      simp [groupAdd, groupGet, h]
    · simp only [groupAdd, if_neg h']
      by_cases h'' : k' = q
      · simp [groupGet, h'']
      · simp [groupGet, h'', ih]

theorem mem_of_groupGet {κ α : Type} [DecidableEq κ]
    {G : List (κ × List α)} {k : κ} {b : List α}
    (h : groupGet G k = some b) : (k, b) ∈ G := by
  induction G with
  | nil => simp [groupGet] at h
  | cons p rest ih =>
    obtain ⟨k', vs⟩ := p
    by_cases h' : k' = k
    · subst h'
      simp [groupGet] at h
      subst h
      exact List.mem_cons_self _ _
    · simp only [groupGet, if_neg h'] at h
      exact List.mem_cons_of_mem _ (ih h)

theorem groupGet_of_mem_nodup {κ α : Type} [DecidableEq κ]
    {G : List (κ × List α)} {k : κ} {b : List α}
    (hn : (G.map Prod.fst).Nodup) (h : (k, b) ∈ G) :
    groupGet G k = some b := by
  induction G with
  | nil => cases h
  | cons p rest ih =>
    obtain ⟨k', vs⟩ := p
    rcases List.mem_cons.mp h with he | hm
    · cases he
      simp [groupGet]
    · have hk : ¬ k' = k := by
        intro hh
        subst hh
        exact (List.nodup_cons.mp hn).1
          (List.mem_map.mpr ⟨(k', b), hm, rfl⟩)
      simp only [groupGet, if_neg hk]
      exact ih (List.nodup_cons.mp hn).2 hm

theorem groupGet_eq_none_iff {κ α : Type} [DecidableEq κ]
    (G : List (κ × List α)) (k : κ) :
    groupGet G k = none ↔ ¬ k ∈ G.map Prod.fst := by
  induction G with
  | nil => simp [groupGet]
  | cons p rest ih =>
    obtain ⟨k', vs⟩ := p
    by_cases h : k' = k
    · subst h
      simp [groupGet]
    · simp [groupGet, h, ih, Ne.symm h]

theorem keys_groupAdd {κ α : Type} [DecidableEq κ]
    (G : List (κ × List α)) (k : κ) (v : α) :
    (groupAdd G k v).map Prod.fst =
      if k ∈ G.map Prod.fst then G.map Prod.fst
      else G.map Prod.fst ++ [k] := by
  induction G with
  | nil => simp [groupAdd]
  | cons p rest ih =>
    obtain ⟨k', vs⟩ := p
    by_cases h : k' = k
    · subst h
      simp [groupAdd]
    · simp only [groupAdd, if_neg h, List.map_cons, ih]
      by_cases hm : k ∈ rest.map Prod.fst
      · simp [hm, Ne.symm h]
      · simp [hm, Ne.symm h]

theorem nodup_keys_groupAdd {κ α : Type} [DecidableEq κ]
    {G : List (κ × List α)} (hn : (G.map Prod.fst).Nodup) (k : κ) (v : α) :
    ((groupAdd G k v).map Prod.fst).Nodup := by
  rw [keys_groupAdd]
  by_cases hm : k ∈ G.map Prod.fst
  · simpa [hm] using hn
  · simp only [if_neg hm]
    simpa [List.nodup_append, hm] using hn

theorem buckets_ne_nil_groupAdd {κ α : Type} [DecidableEq κ]
    {G : List (κ × List α)} (hn : ∀ g ∈ G, g.2 ≠ []) (k : κ) (v : α) :
    ∀ g ∈ groupAdd G k v, g.2 ≠ [] := by
  induction G with
  | nil =>
    intro g hg
    simp only [groupAdd, List.mem_singleton] at hg
    subst hg
    simp
  | cons p rest ih =>
    obtain ⟨k', vs⟩ := p
    intro g hg
    by_cases h : k' = k
    · subst h
      simp only [groupAdd, if_pos rfl] at hg
      rcases List.mem_cons.mp hg with he | hm
      · subst he
        simp
      · exact hn g (List.mem_cons_of_mem _ hm)
    · simp only [groupAdd, if_neg h] at hg
      rcases List.mem_cons.mp hg with he | hm
      · subst he
        exact hn _ (List.mem_cons_self _ _)
      · exact ih (fun g' hg' => hn g' (List.mem_cons_of_mem _ hg')) g hm

theorem join_groupAdd_perm {κ α : Type} [DecidableEq κ]
    (G : List (κ × List α)) (k : κ) (v : α) :
    ((groupAdd G k v).flatMap Prod.snd).Perm (G.flatMap Prod.snd ++ [v]) := by
  induction G with
  | nil => simp [groupAdd]
  | cons p rest ih =>
    obtain ⟨k', vs⟩ := p
    by_cases h : k' = k
    · subst h
      simp only [groupAdd, eq_self_iff_true, if_true, List.flatMap_cons,
        List.append_assoc]
      exact List.Perm.append_left vs List.perm_append_comm
    · simp only [groupAdd, if_neg h, List.flatMap_cons, List.append_assoc]
      exact List.Perm.append_left vs ih


theorem groupGet_fold_of_notmem {κ α β : Type} [DecidableEq κ] (l : List β)
    (kf : β → κ) (vf : β → α) (G0 : List (κ × List α)) (q : κ)
    (h : ∀ x ∈ l, ¬ kf x = q) :
    groupGet (l.foldl (fun acc x => groupAdd acc (kf x) (vf x)) G0) q =
      groupGet G0 q := by
  induction l generalizing G0 with
  | nil => rfl
  | cons y ys ih =>
    rw [List.foldl_cons, ih _ (fun x hx => h x (List.mem_cons_of_mem y hx)),
      groupGet_groupAdd_ne _ _ _ _ (h y (List.mem_cons_self y ys))]

theorem groupGet_fold_mono {κ α β : Type} [DecidableEq κ] (l : List β)
    (kf : β → κ) (vf : β → α) (G0 : List (κ × List α)) (q : κ) (b : List α)
    (h : groupGet G0 q = some b) :
    ∃ b', groupGet (l.foldl (fun acc x => groupAdd acc (kf x) (vf x)) G0) q =
      some b' ∧ ∀ v ∈ b, v ∈ b' := by
  induction l generalizing G0 b with
  | nil => exact ⟨b, h, fun v hv => hv⟩
  | cons y ys ih =>
    rw [List.foldl_cons]
    by_cases hk : kf y = q
    · subst hk
      have hself := groupGet_groupAdd_self G0 (kf y) (vf y)
      rw [h] at hself
      obtain ⟨b', hb', hsub⟩ := ih (groupAdd G0 (kf y) (vf y)) _ hself
      exact ⟨b', hb', fun v hv =>
        hsub v (List.mem_append.mpr (Or.inl (by simpa using hv)))⟩
    · exact ih _ _ (by rw [groupGet_groupAdd_ne _ _ _ _ hk]; exact h)

theorem groupGet_fold_coverage {κ α β : Type} [DecidableEq κ] (l : List β)
    (kf : β → κ) (vf : β → α) (G0 : List (κ × List α)) (s : β) (hs : s ∈ l) :
    ∃ b, groupGet (l.foldl (fun acc x => groupAdd acc (kf x) (vf x)) G0)
      (kf s) = some b ∧ vf s ∈ b := by
  induction l generalizing G0 with
  | nil => cases hs
  | cons y ys ih =>
    rw [List.foldl_cons]
    rcases List.mem_cons.mp hs with he | hm
    · subst he
      have hself := groupGet_groupAdd_self G0 (kf s) (vf s)
      obtain ⟨b', hb', hsub⟩ :=
        groupGet_fold_mono ys kf vf (groupAdd G0 (kf s) (vf s)) (kf s) _ hself
      exact ⟨b', hb', hsub _ (List.mem_append.mpr (Or.inr (by simp)))⟩
    · exact ih _ hm

theorem groupGet_fold_provenance {κ α β : Type} [DecidableEq κ] (l : List β)
    (kf : β → κ) (vf : β → α) (G0 : List (κ × List α)) :
    ∀ (q : κ) (b : List α),
      groupGet (l.foldl (fun acc x => groupAdd acc (kf x) (vf x)) G0) q =
        some b →
      ∀ u ∈ b, (∃ b0, groupGet G0 q = some b0 ∧ u ∈ b0) ∨
        ∃ x, x ∈ l ∧ kf x = q ∧ vf x = u := by
  induction l generalizing G0 with
  | nil =>
    intro q b h u hu
    exact Or.inl ⟨b, h, hu⟩
  | cons y ys ih =>
    intro q b h u hu
    rw [List.foldl_cons] at h
    rcases ih (groupAdd G0 (kf y) (vf y)) q b h u hu with
      ⟨b0, hb0, hub⟩ | ⟨x, hx, hkx, hvx⟩
    · by_cases hk : kf y = q
      · rw [← hk] at hb0
        rw [groupGet_groupAdd_self] at hb0
        cases hb0
        rcases List.mem_append.mp hub with h1 | h2
        · cases hg : groupGet G0 (kf y) with
          | none => rw [hg] at h1; cases h1
          | some b1 =>
            rw [hg] at h1
            rw [← hk]
            exact Or.inl ⟨b1, hg, h1⟩
        · exact Or.inr ⟨y, List.mem_cons_self y ys,
            hk, (List.mem_singleton.mp h2).symm⟩
      · rw [groupGet_groupAdd_ne _ _ _ _ hk] at hb0
        exact Or.inl ⟨b0, hb0, hub⟩
    · exact Or.inr ⟨x, List.mem_cons_of_mem y hx, hkx, hvx⟩

theorem nodup_keys_fold {κ α β : Type} [DecidableEq κ] (l : List β)
    (kf : β → κ) (vf : β → α) (G0 : List (κ × List α))
    (hn : (G0.map Prod.fst).Nodup) :
    (((l.foldl (fun acc x => groupAdd acc (kf x) (vf x)) G0)).map
      Prod.fst).Nodup := by
  induction l generalizing G0 with
  | nil => exact hn
  | cons y ys ih =>
    rw [List.foldl_cons]
    exact ih _ (nodup_keys_groupAdd hn (kf y) (vf y))

theorem buckets_ne_nil_fold {κ α β : Type} [DecidableEq κ] (l : List β)
    (kf : β → κ) (vf : β → α) (G0 : List (κ × List α))
    (hn : ∀ g ∈ G0, g.2 ≠ []) :
    ∀ g ∈ l.foldl (fun acc x => groupAdd acc (kf x) (vf x)) G0, g.2 ≠ [] := by
  induction l generalizing G0 with
  | nil => exact hn
  | cons y ys ih =>
    rw [List.foldl_cons]
    exact ih _ (buckets_ne_nil_groupAdd hn (kf y) (vf y))

theorem join_fold_groupAdd_perm {κ α β : Type} [DecidableEq κ] (l : List β)
    (kf : β → κ) (vf : β → α) (G0 : List (κ × List α)) :
    ((l.foldl (fun acc x => groupAdd acc (kf x) (vf x)) G0).flatMap
      Prod.snd).Perm (G0.flatMap Prod.snd ++ l.map vf) := by
  induction l generalizing G0 with
  | nil => simp
  | cons y ys ih =>
    rw [List.foldl_cons, List.map_cons]
    refine (ih _).trans ?_
    have h1 := join_groupAdd_perm G0 (kf y) (vf y)
    have h2 := h1.append_right (ys.map vf)
    refine h2.trans ?_
    rw [List.append_assoc]
    exact List.Perm.refl _


theorem countP_le_of_mem_join {κ α : Type} {G : List (κ × List α)}
    {g : κ × List α} (hg : g ∈ G) (p : α → Bool) :
    g.2.countP p ≤ (G.flatMap Prod.snd).countP p := by
  induction G with
  | nil => cases hg
  | cons h t ih =>
    rw [List.flatMap_cons, List.countP_append]
    rcases List.mem_cons.mp hg with he | hm
    · subst he
      exact Nat.le_add_right _ _
    · exact le_trans (ih hm) (Nat.le_add_left _ _)

theorem totalNseCmTokens_eq_countP (tl : List TokenGroup) :
    totalNseCmTokens tl =
      (tokensOfTG tl).countP (fun p => p.1 = ExchangeType.NSE_CM) := by
  suffices h : ∀ (tl : List TokenGroup) (a : Nat),
      tl.foldl (fun acc item =>
        if item.exchangeType = ExchangeType.NSE_CM then
          acc + item.tokens.length
        else acc) a =
      a + (tokensOfTG tl).countP (fun p => p.1 = ExchangeType.NSE_CM) by
    simpa [totalNseCmTokens] using h tl 0
  intro tl
  induction tl with
  | nil =>
    intro a
    simp [tokensOfTG]
  | cons g t ih =>
    intro a
    rw [List.foldl_cons]
    by_cases hg : g.exchangeType = ExchangeType.NSE_CM
    · rw [if_pos hg, ih]
      simp only [tokensOfTG, List.flatMap_cons, List.countP_append,
        List.countP_map]
      have hc : (g.tokens.countP
          ((fun p => decide (p.1 = ExchangeType.NSE_CM)) ∘
            fun t => (g.exchangeType, t))) = g.tokens.length := by
        rw [show ((fun p : Int × String =>
            decide (p.1 = ExchangeType.NSE_CM)) ∘
            fun t => (g.exchangeType, t)) = fun t => true by
          funext t
          simp [hg]]
        simp [List.countP_true]
      rw [hc]
      omega
    · rw [if_neg hg, ih]
      simp only [tokensOfTG, List.flatMap_cons, List.countP_append,
        List.countP_map]
      have hc : (g.tokens.countP
          ((fun p => decide (p.1 = ExchangeType.NSE_CM)) ∘
            fun t => (g.exchangeType, t))) = 0 := by
        rw [show ((fun p : Int × String =>
            decide (p.1 = ExchangeType.NSE_CM)) ∘
            fun t => (g.exchangeType, t)) = fun t => false by
          funext t
          simp [hg]]
        simp [List.countP_false]
      rw [hc]
      omega

theorem validMode_toString_inj {a b : Int} (ha : validMode a) (hb : validMode b)
    (h : toString a = toString b) : a = b := by
  rcases ha with rfl | rfl | rfl | rfl <;> rcases hb with rfl | rfl | rfl | rfl <;>
    revert h <;> decide

theorem processGroup_state (st : WSClient) (now : Nat) (gk : String)
    (subs : List SubscriptionData) :
    (processGroup st now gk subs).1 =
      { st with
        subscriptions :=
          subs.foldl
            (fun m sub =>
              mapSet m (getSubscriptionKey sub.exchangeType sub.token) sub)
            st.subscriptions } := rfl

theorem processGroup_outputs (st : WSClient) (now : Nat) (gk : String)
    (subs : List SubscriptionData)
    (hw : st.wsPresent = true) (ho : st.wsOpen = true)
    (hguard : ¬ ((subs.head?.map SubscriptionData.feedMode).getD 0 =
        FeedMode.DEPTH_20 ∧
      totalNseCmTokens ((subs.foldl (fun acc sub =>
          groupAdd acc sub.exchangeType sub.token) []).map
        (fun g => { exchangeType := g.1, tokens := g.2 : TokenGroup })) >
        50)) :
    (processGroup st now gk subs).2 =
      [Output.sendFrame
        { correlationID := "pending-" ++ gk ++ "-" ++ toString now,
          action := Action.SUBSCRIBE,
          mode := (subs.head?.map SubscriptionData.feedMode).getD 0,
          tokenList := (subs.foldl (fun acc sub =>
              groupAdd acc sub.exchangeType sub.token) []).map
            (fun g => { exchangeType := g.1, tokens := g.2 }) }] := by
  simp [processGroup, sendSubscriptionRequest, hw, ho, hguard]


theorem pgfold_fields (now : Nat) (gs : List (String × List SubscriptionData)) :
    ∀ (st : WSClient) (outs0 : List Output),
      ((gs.foldl
          (fun (st : WSClient × List Output) g =>
            let r := processGroup st.1 now g.1 g.2
            (r.1, st.2 ++ r.2)) (st, outs0)).1.connectionState =
        st.connectionState ∧
      (gs.foldl
          (fun (st : WSClient × List Output) g =>
            let r := processGroup st.1 now g.1 g.2
            (r.1, st.2 ++ r.2)) (st, outs0)).1.wsPresent = st.wsPresent ∧
      (gs.foldl
          (fun (st : WSClient × List Output) g =>
            let r := processGroup st.1 now g.1 g.2
            (r.1, st.2 ++ r.2)) (st, outs0)).1.wsOpen = st.wsOpen ∧
      (gs.foldl
          (fun (st : WSClient × List Output) g =>
            let r := processGroup st.1 now g.1 g.2
            (r.1, st.2 ++ r.2)) (st, outs0)).1.pendingSubscriptions =
        st.pendingSubscriptions) := by
  induction gs with
  | nil =>
    intro st outs0
    exact ⟨rfl, rfl, rfl, rfl⟩
  | cons g t ih =>
    intro st outs0
    rw [List.foldl_cons]
    have h := ih (processGroup st now g.1 g.2).1
      (outs0 ++ (processGroup st now g.1 g.2).2)
    rw [processGroup_state] at h
    exact h

theorem pgfold_notouched (now : Nat)
    (gs : List (String × List SubscriptionData)) :
    ∀ (st : WSClient) (outs0 : List Output) (q : String),
      (∀ g ∈ gs, ∀ y ∈ g.2,
        ¬ getSubscriptionKey y.exchangeType y.token = q) →
      mapGet ((gs.foldl
          (fun (st : WSClient × List Output) g =>
            let r := processGroup st.1 now g.1 g.2
            (r.1, st.2 ++ r.2)) (st, outs0)).1.subscriptions) q =
        mapGet st.subscriptions q := by
  induction gs with
  | nil =>
    intro st outs0 q _
    rfl
  | cons g t ih =>
    intro st outs0 q h
    rw [List.foldl_cons]
    rw [ih _ _ q (fun g' hg' y hy =>
      h g' (List.mem_cons_of_mem g hg') y hy)]
    rw [processGroup_state]
    exact mapGet_foldl_mapSet_of_notmem g.2
      (fun sub => getSubscriptionKey sub.exchangeType sub.token)
      (fun sub => sub) st.subscriptions q
      (fun y hy => h g (List.mem_cons_self g t) y hy)

theorem pgfold_lookup (now : Nat)
    (gs : List (String × List SubscriptionData)) :
    ∀ (st : WSClient) (outs0 : List Output)
      (g : String × List SubscriptionData) (sub : SubscriptionData),
      g ∈ gs → sub ∈ g.2 →
      ∃ sub' g', g' ∈ gs ∧ sub' ∈ g'.2 ∧
        getSubscriptionKey sub'.exchangeType sub'.token =
          getSubscriptionKey sub.exchangeType sub.token ∧
        mapGet ((gs.foldl
            (fun (st : WSClient × List Output) g =>
              let r := processGroup st.1 now g.1 g.2
              (r.1, st.2 ++ r.2)) (st, outs0)).1.subscriptions)
          (getSubscriptionKey sub.exchangeType sub.token) = some sub' := by
  induction gs with
  | nil =>
    intro st outs0 g sub hg _
    cases hg
  | cons g0 t ih =>
    intro st outs0 g sub hg hsub
    rcases List.mem_cons.mp hg with he | hm
    · subst he
      by_cases hq : ∃ g' , g' ∈ t ∧ ∃ y, y ∈ g'.2 ∧
          getSubscriptionKey y.exchangeType y.token =
            getSubscriptionKey sub.exchangeType sub.token
      · obtain ⟨g', hg', y, hy, hk⟩ := hq
        obtain ⟨sub', g'', hg'', hsub', hk', hget⟩ :=
          ih (processGroup st now g.1 g.2).1
            (outs0 ++ (processGroup st now g.1 g.2).2) g' y hg' hy
        rw [hk] at hget hk'
        exact ⟨sub', g'', List.mem_cons_of_mem g hg'', hsub', hk',
          by rw [List.foldl_cons]; exact hget⟩
      · rw [List.foldl_cons]
        rw [pgfold_notouched now t _ _ _
          (fun g' hg' y hy hk => hq ⟨g', hg', y, hy, hk⟩)]
        rw [processGroup_state]
        obtain ⟨x, hx, hk, hget⟩ :=
          mapGet_foldl_mapSet_of_mem g.2
            (fun sub => getSubscriptionKey sub.exchangeType sub.token)
            (fun sub => sub) st.subscriptions sub hsub
        exact ⟨x, g, List.mem_cons_self g t, hx, hk, hget⟩
    · obtain ⟨sub', g', hg', hsub', hk', hget⟩ :=
        ih (processGroup st now g0.1 g0.2).1
          (outs0 ++ (processGroup st now g0.1 g0.2).2) g sub hm hsub
      exact ⟨sub', g', List.mem_cons_of_mem g0 hg', hsub', hk',
        by rw [List.foldl_cons]; exact hget⟩

theorem pgfold_outputs (now : Nat)
    (gs : List (String × List SubscriptionData)) :
    ∀ (st : WSClient) (outs0 : List Output),
      st.wsPresent = true → st.wsOpen = true →
      (∀ g ∈ gs,
        ¬ ((g.2.head?.map SubscriptionData.feedMode).getD 0 =
            FeedMode.DEPTH_20 ∧
          totalNseCmTokens ((g.2.foldl (fun acc sub =>
              groupAdd acc sub.exchangeType sub.token) []).map
            (fun p => { exchangeType := p.1, tokens := p.2 : TokenGroup })) >
            50)) →
      (gs.foldl
          (fun (st : WSClient × List Output) g =>
            let r := processGroup st.1 now g.1 g.2
            (r.1, st.2 ++ r.2)) (st, outs0)).2 =
        outs0 ++ gs.map (fun g => Output.sendFrame
          { correlationID := "pending-" ++ g.1 ++ "-" ++ toString now,
            action := Action.SUBSCRIBE,
            mode := (g.2.head?.map SubscriptionData.feedMode).getD 0,
            tokenList := (g.2.foldl (fun acc sub =>
                groupAdd acc sub.exchangeType sub.token) []).map
              (fun p => { exchangeType := p.1, tokens := p.2 }) }) := by
  induction gs with
  | nil =>
    intro st outs0 _ _ _
    simp
  | cons g t ih =>
    intro st outs0 hw ho hguard
    rw [List.foldl_cons, List.map_cons]
    have hstep := processGroup_outputs st now g.1 g.2 hw ho
      (hguard g (List.mem_cons_self g t))
    have hrec := ih (processGroup st now g.1 g.2).1
      (outs0 ++ (processGroup st now g.1 g.2).2)
      (by rw [processGroup_state]; exact hw)
      (by rw [processGroup_state]; exact ho)
      (fun g' hg' => hguard g' (List.mem_cons_of_mem g hg'))
    rw [hrec, hstep]
    simp


/-- Content of a bucket built by a `groupAdd` fold: the values of the
source elements whose key is the bucket key, in order, appended to the
initial bucket. -/
theorem groupGet_fold_getD {κ α β : Type} [DecidableEq κ] (kf : β → κ)
    (vf : β → α) (l : List β) :
    ∀ (G0 : List (κ × List α)) (q : κ),
      (groupGet (l.foldl (fun acc x => groupAdd acc (kf x) (vf x)) G0)
          q).getD [] =
        (groupGet G0 q).getD [] ++ (l.filter (fun x => kf x = q)).map vf := by
  induction l with
  | nil =>
    intro G0 q
    simp
  | cons y ys ih =>
    intro G0 q
    rw [List.foldl_cons]
    by_cases hk : kf y = q
    · subst hk
      rw [ih (groupAdd G0 (kf y) (vf y)) (kf y), groupGet_groupAdd_self]
      simp [List.filter_cons, List.append_assoc]
    · rw [ih (groupAdd G0 (kf y) (vf y)) q, groupGet_groupAdd_ne _ _ _ _ hk]
      have hf : (y :: ys).filter (fun x => kf x = q) =
          ys.filter (fun x => kf x = q) := by
        simp [List.filter_cons, hk]
      rw [hf]

/-- The keyed join of a `groupAdd` accumulation is a permutation of the
source key-value pairs. -/
theorem pairs_groupAdd_perm {κ α : Type} [DecidableEq κ]
    (G : List (κ × List α)) (k : κ) (v : α) :
    ((groupAdd G k v).flatMap (fun p => p.2.map (fun x => (p.1, x)))).Perm
      (G.flatMap (fun p => p.2.map (fun x => (p.1, x))) ++ [(k, v)]) := by
  induction G with
  | nil => simp [groupAdd]
  | cons p rest ih =>
    obtain ⟨k', vs⟩ := p
    by_cases h : k' = k
    · subst h
      simp only [groupAdd, eq_self_iff_true, if_true, List.flatMap_cons,
        List.map_append, List.append_assoc]
      refine List.Perm.append_left _ ?_
      simp only [List.map_cons, List.map_nil]
      exact List.perm_append_comm
    · simp only [groupAdd, if_neg h, List.flatMap_cons, List.append_assoc]
      exact List.Perm.append_left _ ih

theorem pairs_fold_groupAdd_perm {κ α β : Type} [DecidableEq κ] (l : List β)
    (kf : β → κ) (vf : β → α) (G0 : List (κ × List α)) :
    ((l.foldl (fun acc x => groupAdd acc (kf x) (vf x)) G0).flatMap
        (fun p => p.2.map (fun x => (p.1, x)))).Perm
      (G0.flatMap (fun p => p.2.map (fun x => (p.1, x))) ++
        l.map (fun x => (kf x, vf x))) := by
  induction l generalizing G0 with
  | nil => simp
  | cons y ys ih =>
    rw [List.foldl_cons, List.map_cons]
    refine (ih _).trans ?_
    have h2 := (pairs_groupAdd_perm G0 (kf y) (vf y)).append_right
      (ys.map (fun x => (kf x, vf x)))
    refine h2.trans ?_
    rw [List.append_assoc]
    exact List.Perm.refl _


theorem sentFrames_map_sendFrame {β : Type} (l : List β)
    (f : β → WebSocketRequest) :
    sentFrames (l.map (fun x => Output.sendFrame (f x))) = l.map f := by
  induction l with
  | nil => rfl
  | cons y ys ih => simp [sentFrames] at ih ⊢; exact ih

theorem sentFrames_append (a b : List Output) :
    sentFrames (a ++ b) = sentFrames a ++ sentFrames b :=
  List.filterMap_append a b _

/-- Full behaviour of one pending-queue flush: the queue is cleared, the
connection state is untouched, every queued entry is recorded in the
registry under its key, one subscribe frame is sent per distinct feed mode
(so the sent modes are pairwise distinct), and every queued entry's token
appears in its mode's frame under its exchange type — provided the flushed
DEPTH_20 NSE_CM token count does not exceed the 50-token guard of
`sendSubscriptionRequest`. -/
theorem processPending_spec (st : WSClient) (now : Nat)
    (hw : st.wsPresent = true) (ho : st.wsOpen = true)
    (hv : ∀ sub ∈ st.pendingSubscriptions, validMode sub.feedMode)
    (hcap : st.pendingSubscriptions.countP (fun sub =>
      sub.feedMode = FeedMode.DEPTH_20 ∧
        sub.exchangeType = ExchangeType.NSE_CM) ≤ 50) :
    (processPendingSubscriptions st now).1.pendingSubscriptions = [] ∧
    (processPendingSubscriptions st now).1.connectionState =
      st.connectionState ∧
    (∀ sub ∈ st.pendingSubscriptions, ∃ sub',
      sub' ∈ st.pendingSubscriptions ∧
      getSubscriptionKey sub'.exchangeType sub'.token =
        getSubscriptionKey sub.exchangeType sub.token ∧
      mapGet (processPendingSubscriptions st now).1.subscriptions
        (getSubscriptionKey sub.exchangeType sub.token) = some sub') ∧
    ((sentFrames (processPendingSubscriptions st now).2).map
      WebSocketRequest.mode).Nodup ∧
    (∀ sub ∈ st.pendingSubscriptions, ∃ req,
      req ∈ sentFrames (processPendingSubscriptions st now).2 ∧
      req.mode = sub.feedMode ∧ ∃ tg, tg ∈ req.tokenList ∧
        tg.exchangeType = sub.exchangeType ∧ sub.token ∈ tg.tokens) := by
  by_cases hp : st.pendingSubscriptions = []
  · have hnoop : processPendingSubscriptions st now = (st, []) := by
      unfold processPendingSubscriptions
      rw [if_pos hp]
    rw [hnoop]
    refine ⟨hp, rfl, ?_, by simp [sentFrames], ?_⟩
    · intro sub hsub
      rw [hp] at hsub
      cases hsub
    · intro sub hsub
      rw [hp] at hsub
      cases hsub
  · have hproc : processPendingSubscriptions st now =
        ({ ((st.pendingSubscriptions.foldl (fun acc sub =>
              groupAdd acc (toString sub.feedMode) sub) []).foldl
            (fun (st : WSClient × List Output) g =>
              let r := processGroup st.1 now g.1 g.2
              (r.1, st.2 ++ r.2)) (st, [])).1 with
          pendingSubscriptions := [] },
         ((st.pendingSubscriptions.foldl (fun acc sub =>
              groupAdd acc (toString sub.feedMode) sub) []).foldl
            (fun (st : WSClient × List Output) g =>
              let r := processGroup st.1 now g.1 g.2
              (r.1, st.2 ++ r.2)) (st, [])).2) := by
      unfold processPendingSubscriptions
      rw [if_neg hp]
    have hnodup := nodup_keys_fold st.pendingSubscriptions
      (fun sub => toString sub.feedMode) (fun sub => sub) [] (by simp)
    have hne := buckets_ne_nil_fold st.pendingSubscriptions
      (fun sub => toString sub.feedMode) (fun sub => sub) [] (by simp)
    have hprov : ∀ g ∈ st.pendingSubscriptions.foldl (fun acc sub =>
          groupAdd acc (toString sub.feedMode) sub) [],
        ∀ u ∈ g.2, u ∈ st.pendingSubscriptions ∧
          toString u.feedMode = g.1 := by
      intro g hg u hu
      have hget := groupGet_of_mem_nodup hnodup hg
      have hpr := groupGet_fold_provenance st.pendingSubscriptions
        (fun sub => toString sub.feedMode) (fun sub => sub) [] g.1 g.2
        hget u hu
      rcases hpr with ⟨b0, hb0, -⟩ | ⟨x, hx, hkx, hvx⟩
      · simp [groupGet] at hb0
      · cases hvx
        exact ⟨hx, hkx⟩
    have hmode : ∀ g ∈ st.pendingSubscriptions.foldl (fun acc sub =>
          groupAdd acc (toString sub.feedMode) sub) [],
        ∀ u ∈ g.2, u.feedMode =
          (g.2.head?.map SubscriptionData.feedMode).getD 0 := by
      intro g hg u hu
      have hne' := hne g hg
      have hh0 := List.head?_eq_head hne'
      rw [hh0]
      simp only [Option.map_some', Option.getD_some]
      have h1 := hprov g hg u hu
      have h2 := hprov g hg _ (List.head_mem hne')
      exact validMode_toString_inj (hv u h1.1) (hv _ h2.1)
        (h1.2.trans h2.2.symm)
    have hguard : ∀ g ∈ st.pendingSubscriptions.foldl (fun acc sub =>
          groupAdd acc (toString sub.feedMode) sub) [],
        ¬ ((g.2.head?.map SubscriptionData.feedMode).getD 0 =
            FeedMode.DEPTH_20 ∧
          totalNseCmTokens ((g.2.foldl (fun acc sub =>
              groupAdd acc sub.exchangeType sub.token) []).map
            (fun p => { exchangeType := p.1, tokens := p.2 : TokenGroup })) >
            50) := by
      rintro g hg ⟨hfm, hcnt⟩
      have htl : totalNseCmTokens ((g.2.foldl (fun acc sub =>
            groupAdd acc sub.exchangeType sub.token) []).map
          (fun p => { exchangeType := p.1, tokens := p.2 : TokenGroup })) =
          g.2.countP (fun sub =>
            sub.exchangeType = ExchangeType.NSE_CM) := by
        rw [totalNseCmTokens_eq_countP]
        have hE : tokensOfTG ((g.2.foldl (fun acc sub =>
              groupAdd acc sub.exchangeType sub.token) []).map
            (fun p => { exchangeType := p.1, tokens := p.2 : TokenGroup })) =
            (g.2.foldl (fun acc sub =>
              groupAdd acc sub.exchangeType sub.token) []).flatMap
              (fun p => p.2.map (fun x => (p.1, x))) := by
          unfold tokensOfTG
          rw [List.flatMap_map]
        rw [hE]
        have hperm := pairs_fold_groupAdd_perm g.2
          (fun sub => sub.exchangeType) (fun sub => sub.token) []
        rw [hperm.countP_eq]
        simp [List.countP_map, Function.comp_def]
      have hcong : g.2.countP (fun sub =>
            sub.exchangeType = ExchangeType.NSE_CM) =
          g.2.countP (fun sub => sub.feedMode = FeedMode.DEPTH_20 ∧
            sub.exchangeType = ExchangeType.NSE_CM) := by
        apply List.countP_congr
        intro u hu
        have hm := hmode g hg u hu
        rw [hfm] at hm
        simp [hm]
      have hjoin := countP_le_of_mem_join hg (fun sub =>
        decide (sub.feedMode = FeedMode.DEPTH_20 ∧
          sub.exchangeType = ExchangeType.NSE_CM))
      have hperm2 := join_fold_groupAdd_perm st.pendingSubscriptions
        (fun sub => toString sub.feedMode) (fun sub => sub) []
      have hj2 : ((st.pendingSubscriptions.foldl (fun acc sub =>
            groupAdd acc (toString sub.feedMode) sub) []).flatMap
            Prod.snd).countP (fun sub =>
              decide (sub.feedMode = FeedMode.DEPTH_20 ∧
                sub.exchangeType = ExchangeType.NSE_CM)) =
          st.pendingSubscriptions.countP (fun sub =>
            decide (sub.feedMode = FeedMode.DEPTH_20 ∧
              sub.exchangeType = ExchangeType.NSE_CM)) := by
        rw [hperm2.countP_eq]
        simp
      rw [htl, hcong] at hcnt
      rw [hj2] at hjoin
      omega
    have houts := pgfold_outputs now (st.pendingSubscriptions.foldl
        (fun acc sub => groupAdd acc (toString sub.feedMode) sub) [])
      st [] hw ho hguard
    refine ⟨by rw [hproc], by rw [hproc]; exact (pgfold_fields now _ st []).1,
      ?_, ?_, ?_⟩
    · intro sub hsub
      obtain ⟨b, hb, hmem⟩ := groupGet_fold_coverage st.pendingSubscriptions
        (fun sub => toString sub.feedMode) (fun sub => sub) [] sub hsub
      have hgmem := mem_of_groupGet hb
      obtain ⟨sub', g', hg', hsub', hk', hget⟩ := pgfold_lookup now
        (st.pendingSubscriptions.foldl (fun acc sub =>
          groupAdd acc (toString sub.feedMode) sub) []) st []
        (toString sub.feedMode, b) sub hgmem hmem
      exact ⟨sub', (hprov g' hg' sub' hsub').1, hk', by rw [hproc]; exact hget⟩
    · rw [hproc]
      simp only [houts, List.nil_append, sentFrames_map_sendFrame]
      have hmodes : ((st.pendingSubscriptions.foldl (fun acc sub =>
            groupAdd acc (toString sub.feedMode) sub) []).map (fun g =>
            ({ correlationID := "pending-" ++ g.1 ++ "-" ++ toString now,
               action := Action.SUBSCRIBE,
               mode := (g.2.head?.map SubscriptionData.feedMode).getD 0,
               tokenList := (g.2.foldl (fun acc sub =>
                   groupAdd acc sub.exchangeType sub.token) []).map
                 (fun p => { exchangeType := p.1, tokens := p.2 })
               : WebSocketRequest }))).map WebSocketRequest.mode =
          (st.pendingSubscriptions.foldl (fun acc sub =>
            groupAdd acc (toString sub.feedMode) sub) []).map (fun g =>
              (g.2.head?.map SubscriptionData.feedMode).getD 0) := by
        rw [List.map_map]
        rfl
      rw [hmodes]
      have htos : ((st.pendingSubscriptions.foldl (fun acc sub =>
            groupAdd acc (toString sub.feedMode) sub) []).map (fun g =>
              (g.2.head?.map SubscriptionData.feedMode).getD 0)).map
            toString =
          (st.pendingSubscriptions.foldl (fun acc sub =>
            groupAdd acc (toString sub.feedMode) sub) []).map Prod.fst := by
        rw [List.map_map]
        apply List.map_congr_left
        intro g hg
        have hne' := hne g hg
        have hh0 := List.head?_eq_head hne'
        simp only [Function.comp_apply, hh0, Option.map_some',
          Option.getD_some]
        exact (hprov g hg _ (List.head_mem hne')).2
      exact List.Nodup.of_map toString (by rw [htos]; exact hnodup)
    · intro sub hsub
      obtain ⟨b, hb, hmem⟩ := groupGet_fold_coverage st.pendingSubscriptions
        (fun sub => toString sub.feedMode) (fun sub => sub) [] sub hsub
      have hgmem := mem_of_groupGet hb
      refine ⟨{ correlationID :=
                  "pending-" ++ toString sub.feedMode ++ "-" ++ toString now,
                action := Action.SUBSCRIBE,
                mode := (b.head?.map SubscriptionData.feedMode).getD 0,
                tokenList := (b.foldl (fun acc sub =>
                    groupAdd acc sub.exchangeType sub.token) []).map
                  (fun p => { exchangeType := p.1, tokens := p.2 }) },
        ?_, ?_, ?_⟩
      · rw [hproc]
        rw [houts]
        rw [List.nil_append, sentFrames_map_sendFrame]
        exact List.mem_map.mpr ⟨(toString sub.feedMode, b), hgmem, rfl⟩
      · exact (hmode _ hgmem sub hmem).symm
      · obtain ⟨tb, htb, htok⟩ := groupGet_fold_coverage b
          (fun sub => sub.exchangeType) (fun sub => sub.token) [] sub hmem
        have htmem := mem_of_groupGet htb
        exact ⟨{ exchangeType := sub.exchangeType, tokens := tb },
          List.mem_map.mpr ⟨(sub.exchangeType, tb), htmem, rfl⟩, rfl, htok⟩


/-- C4 (counterexample): 51 DEPTH_20 NSE_CM subscriptions queued one at a
time (individual `subscribe` calls impose no count limit on the queue) make
the flush's single DEPTH_20 frame trip the 50-token guard of
`sendSubscriptionRequest`: the flush emits an E1002 error and sends NO
frame, even though all 51 entries are recorded in the registry and the
queue is cleared — so the queued subscriptions are lost at the wire,
contrary to the claim's "no queued subscription is lost". -/
theorem c4_counterexample :
    (openHandler pending51Client 0).2 =
      [Output.emitError "E1002" "Invalid Request. Subscription Limit Exceeded.",
       Output.emit "connected"] ∧
    sentFrames (openHandler pending51Client 0).2 = [] ∧
    (openHandler pending51Client 0).1.subscriptions.length = 51 ∧
    (openHandler pending51Client 0).1.pendingSubscriptions = [] := by decide

/-- C4 (amended): a subscribe call issued while the client is not CONNECTED
is enqueued as a pending subscription (the call resolves as queued and
additionally triggers `connect()` exactly when the state is fully
DISCONNECTED).  Immediately after the CONNECTED transition the pending
queue is flushed exactly once — one frame per distinct feed mode, grouped
by exchange within the frame, every queued entry recorded in the registry,
the queue empty afterwards and a second flush a no-op — provided the
queued DEPTH_20 NSE_CM entries do not exceed 50 (otherwise that group's
frame is suppressed with an E1002 error, though the entries are still
recorded and the queue still cleared). -/
theorem c4_pending_flush_amended :
    (∀ (c : WSClient) (id : String) (ex : Int) (tok : String) (mode : Int),
      ¬ (mode = FeedMode.DEPTH_20 ∧ ¬ ex = ExchangeType.NSE_CM) →
      ¬ c.connectionState = ConnectionState.CONNECTED →
      subscribe c id ex tok mode =
        ({ c with pendingSubscriptions := c.pendingSubscriptions ++
            [{ correlationId := id, exchangeType := ex, token := tok,
               feedMode := mode }] },
         Except.ok { status := true, message := "Subscription queued" },
         if c.connectionState = ConnectionState.DISCONNECTED then
           [Output.connectInitiated]
         else [])) ∧
    (∀ (c : WSClient) (now : Nat),
      c.wsPresent = true →
      (∀ sub ∈ c.pendingSubscriptions, validMode sub.feedMode) →
      c.pendingSubscriptions.countP (fun sub =>
        sub.feedMode = FeedMode.DEPTH_20 ∧
          sub.exchangeType = ExchangeType.NSE_CM) ≤ 50 →
      ((openHandler c now).1.connectionState = ConnectionState.CONNECTED ∧
       (openHandler c now).1.pendingSubscriptions = [] ∧
       (∀ now2, processPendingSubscriptions (openHandler c now).1 now2 =
         ((openHandler c now).1, [])) ∧
       (∀ sub ∈ c.pendingSubscriptions, ∃ sub',
         sub' ∈ c.pendingSubscriptions ∧
         getSubscriptionKey sub'.exchangeType sub'.token =
           getSubscriptionKey sub.exchangeType sub.token ∧
         mapGet (openHandler c now).1.subscriptions
           (getSubscriptionKey sub.exchangeType sub.token) = some sub') ∧
       ((sentFrames (openHandler c now).2).map WebSocketRequest.mode).Nodup ∧
       (∀ sub ∈ c.pendingSubscriptions, ∃ req,
         req ∈ sentFrames (openHandler c now).2 ∧
         req.mode = sub.feedMode ∧ ∃ tg, tg ∈ req.tokenList ∧
           tg.exchangeType = sub.exchangeType ∧ sub.token ∈ tg.tokens))) := by
  constructor
  · intro c id ex tok mode hval hc
    unfold subscribe
    rw [if_neg hval, if_pos hc]
  · intro c now hw hv hcap
    have hempty : ∀ (x : WSClient), x.pendingSubscriptions = [] →
        ∀ n2, processPendingSubscriptions x n2 = (x, []) := by
      intro x hx n2
      unfold processPendingSubscriptions
      rw [if_pos hx]
    obtain ⟨h1, h2, h3, h4, h5⟩ := processPending_spec
      { c with connectionState := ConnectionState.CONNECTED,
               reconnectAttempts := 0, heartbeatActive := true,
               wsOpen := true } now hw rfl hv hcap
    have hfst : (openHandler c now).1 =
        (processPendingSubscriptions
          { c with connectionState := ConnectionState.CONNECTED,
                   reconnectAttempts := 0, heartbeatActive := true,
                   wsOpen := true } now).1 := rfl
    have hsnd : sentFrames (openHandler c now).2 =
        sentFrames (processPendingSubscriptions
          { c with connectionState := ConnectionState.CONNECTED,
                   reconnectAttempts := 0, heartbeatActive := true,
                   wsOpen := true } now).2 := by
      show sentFrames (_ ++ [Output.emit "connected"]) = _
      rw [sentFrames_append]
      simp [sentFrames]
    refine ⟨?_, ?_, ?_, ?_, ?_, ?_⟩
    · rw [hfst, h2]
    · rw [hfst]
      exact h1
    · intro now2
      exact hempty _ (by rw [hfst]; exact h1) now2
    · intro sub hsub
      obtain ⟨sub', hmem, hk, hget⟩ := h3 sub hsub
      exact ⟨sub', hmem, hk, by rw [hfst]; exact hget⟩
    · rw [hsnd]
      exact h4
    · intro sub hsub
      obtain ⟨req, hreq, hm, tg, htg, hex, htok⟩ := h5 sub hsub
      exact ⟨req, by rw [hsnd]; exact hreq, hm, tg, htg, hex, htok⟩

/-- C4 (witness for the amended theorem). -/
theorem c4_pending_flush_amended_witness :
    subscribe initialClient "cid" 2 "55" 1 =
      ({ initialClient with pendingSubscriptions :=
          [{ correlationId := "cid", exchangeType := 2, token := "55",
             feedMode := 1 }] },
       Except.ok { status := true, message := "Subscription queued" },
       [Output.connectInitiated]) ∧
    (openHandler pendingTwoClient 7).1.connectionState =
      ConnectionState.CONNECTED ∧
    (openHandler pendingTwoClient 7).1.pendingSubscriptions = [] ∧
    ((sentFrames (openHandler pendingTwoClient 7).2).map
      WebSocketRequest.mode).Nodup :=
  ⟨c4_pending_flush_amended.1 initialClient "cid" 2 "55" 1 (by decide)
     (by decide),
   (c4_pending_flush_amended.2 pendingTwoClient 7 (by decide) (by decide)
     (by decide)).1,
   (c4_pending_flush_amended.2 pendingTwoClient 7 (by decide) (by decide)
     (by decide)).2.1,
   (c4_pending_flush_amended.2 pendingTwoClient 7 (by decide) (by decide)
     (by decide)).2.2.2.2.1⟩


/-! ### Batching lemmas for `resubscribe` -/

theorem foldl_append_flatMap {α : Type} (f : α → List Output) (l : List α) :
    ∀ acc0 : List Output,
      l.foldl (fun acc x => acc ++ f x) acc0 = acc0 ++ l.flatMap f := by
  induction l with
  | nil =>
    intro acc0
    simp
  | cons y ys ih =>
    intro acc0
    rw [List.foldl_cons, ih, List.flatMap_cons, List.append_assoc]

theorem sentFrames_flatMap {α : Type} (f : α → List Output) (l : List α) :
    sentFrames (l.flatMap f) = l.flatMap (fun x => sentFrames (f x)) := by
  induction l with
  | nil => rfl
  | cons y ys ih =>
    rw [List.flatMap_cons, sentFrames_append, ih, List.flatMap_cons]

theorem mem_enumFrom_of_mem {α : Type} {x : α} :
    ∀ (l : List α) (n : Nat), x ∈ l → ∃ i, (i, x) ∈ l.enumFrom n := by
  intro l
  induction l with
  | nil =>
    intro n h
    cases h
  | cons y ys ih =>
    intro n h
    rcases List.mem_cons.mp h with he | hm
    · subst he
      exact ⟨n, List.mem_cons_self _ _⟩
    · obtain ⟨i, hi⟩ := ih (n + 1) hm
      exact ⟨i, List.mem_cons_of_mem _ hi⟩

theorem tcount_go (l : List TokenGroup) :
    ∀ a : Nat, l.foldl (fun acc g => acc + g.tokens.length) a =
      a + l.foldl (fun acc g => acc + g.tokens.length) 0 := by
  induction l with
  | nil =>
    intro a
    simp
  | cons g t ih =>
    intro a
    rw [List.foldl_cons, List.foldl_cons, ih (a + g.tokens.length),
      ih (0 + g.tokens.length)]
    omega

theorem tcount_cons (g : TokenGroup) (l : List TokenGroup) :
    tcount (g :: l) = g.tokens.length + tcount l := by
  simp only [tcount, List.foldl_cons]
  rw [tcount_go]
  omega

theorem tcount_singleton (g : TokenGroup) : tcount [g] = g.tokens.length := by
  rw [tcount_cons]
  simp [tcount]

theorem weight_go (l : List TokenGroup) :
    ∀ a : Nat, l.foldl (fun acc g => acc + g.tokens.length + 1) a =
      a + l.foldl (fun acc g => acc + g.tokens.length + 1) 0 := by
  induction l with
  | nil =>
    intro a
    simp
  | cons g t ih =>
    intro a
    rw [List.foldl_cons, List.foldl_cons, ih (a + g.tokens.length + 1),
      ih (0 + g.tokens.length + 1)]
    omega

theorem weight_cons (g : TokenGroup) (l : List TokenGroup) :
    weight (g :: l) = g.tokens.length + 1 + weight l := by
  simp only [weight, List.foldl_cons]
  rw [weight_go]
  omega

theorem depthChunksAux_succ (n idx : Nat) (l : List String) (he : ¬ l = []) :
    depthChunksAux (n + 1) idx l =
      (idx, l.take 50) :: depthChunksAux n (idx + 1) (l.drop 50) := by
  conv_lhs => unfold depthChunksAux
  rw [if_neg he]

theorem depthChunksAux_join :
    ∀ (fuel idx : Nat) (l : List String), l.length ≤ fuel →
      (depthChunksAux fuel idx l).flatMap Prod.snd = l := by
  intro fuel
  induction fuel with
  | zero =>
    intro idx l hl
    have he : l = [] := List.length_eq_zero.mp (Nat.le_zero.mp hl)
    subst he
    rfl
  | succ n ih =>
    intro idx l hl
    by_cases he : l = []
    · subst he
      rfl
    · rw [depthChunksAux_succ n idx l he, List.flatMap_cons]
      have hlen : (l.drop 50).length ≤ n := by
        rw [List.length_drop]
        have : l.length ≥ 1 := List.length_pos.mpr he
        omega
      rw [ih (idx + 1) (l.drop 50) hlen]
      exact List.take_append_drop 50 l

theorem depthChunksAux_size :
    ∀ (fuel idx : Nat) (l : List String) (p : Nat × List String),
      p ∈ depthChunksAux fuel idx l → p.2.length ≤ 50 := by
  intro fuel
  induction fuel with
  | zero =>
    intro idx l p hp
    cases hp
  | succ n ih =>
    intro idx l p hp
    by_cases he : l = []
    · subst he
      cases hp
    · rw [depthChunksAux_succ n idx l he] at hp
      rcases List.mem_cons.mp hp with hh | hm
      · subst hh
        simp [List.length_take]
      · exact ih (idx + 1) (l.drop 50) p hm

theorem takeBatch_zero (g : TokenGroup) (rest : List TokenGroup) :
    takeBatch 0 (g :: rest) = ([], g :: rest) := rfl

theorem takeBatch_fit (cap : Nat) (g : TokenGroup) (rest : List TokenGroup)
    (h0 : ¬ cap = 0) (hfit : g.tokens.length ≤ cap) :
    takeBatch cap (g :: rest) =
      (g :: (takeBatch (cap - g.tokens.length) rest).1,
       (takeBatch (cap - g.tokens.length) rest).2) := by
  conv_lhs => unfold takeBatch
  rw [if_neg h0, if_pos hfit]

theorem takeBatch_split (cap : Nat) (g : TokenGroup) (rest : List TokenGroup)
    (h0 : ¬ cap = 0) (hfit : ¬ g.tokens.length ≤ cap) :
    takeBatch cap (g :: rest) =
      ([{ exchangeType := g.exchangeType, tokens := g.tokens.take cap }],
       { exchangeType := g.exchangeType,
         tokens := g.tokens.drop cap } :: rest) := by
  conv_lhs => unfold takeBatch
  rw [if_neg h0, if_neg hfit]

theorem takeBatch_cover :
    ∀ (cap : Nat) (l : List TokenGroup),
      tokensOfTG (takeBatch cap l).1 ++ tokensOfTG (takeBatch cap l).2 =
        tokensOfTG l := by
  intro cap l
  induction l generalizing cap with
  | nil => simp [takeBatch, tokensOfTG]
  | cons g rest ih =>
    by_cases h0 : cap = 0
    · subst h0
      rw [takeBatch_zero]
      simp [tokensOfTG]
    · by_cases hfit : g.tokens.length ≤ cap
      · rw [takeBatch_fit cap g rest h0 hfit]
        dsimp only
        simp only [tokensOfTG, List.flatMap_cons, List.append_assoc]
        have := ih (cap - g.tokens.length)
        simp only [tokensOfTG] at this
        rw [this]
      · rw [takeBatch_split cap g rest h0 hfit]
        dsimp only
        simp only [tokensOfTG, List.flatMap_cons, List.flatMap_nil,
          List.append_nil, List.append_assoc]
        rw [← List.append_assoc, ← List.map_append, List.take_append_drop]

theorem takeBatch_cap :
    ∀ (cap : Nat) (l : List TokenGroup), tcount (takeBatch cap l).1 ≤ cap := by
  intro cap l
  induction l generalizing cap with
  | nil => simp [takeBatch, tcount]
  | cons g rest ih =>
    by_cases h0 : cap = 0
    · subst h0
      rw [takeBatch_zero]
      simp [tcount]
    · by_cases hfit : g.tokens.length ≤ cap
      · rw [takeBatch_fit cap g rest h0 hfit]
        dsimp only
        rw [tcount_cons]
        have := ih (cap - g.tokens.length)
        omega
      · rw [takeBatch_split cap g rest h0 hfit]
        dsimp only
        rw [tcount_singleton]
        dsimp only
        rw [List.length_take]
        omega

theorem takeBatch_weight_le :
    ∀ (cap : Nat) (l : List TokenGroup),
      weight (takeBatch cap l).2 ≤ weight l := by
  intro cap l
  induction l generalizing cap with
  | nil => simp [takeBatch]
  | cons g rest ih =>
    by_cases h0 : cap = 0
    · subst h0
      rw [takeBatch_zero]
    · by_cases hfit : g.tokens.length ≤ cap
      · rw [takeBatch_fit cap g rest h0 hfit]
        dsimp only
        have := ih (cap - g.tokens.length)
        rw [weight_cons]
        omega
      · rw [takeBatch_split cap g rest h0 hfit]
        dsimp only
        rw [weight_cons, weight_cons]
        dsimp only
        rw [List.length_drop]
        omega

theorem takeBatch_weight_lt :
    ∀ (cap : Nat) (l : List TokenGroup), ¬ cap = 0 → ¬ l = [] →
      weight (takeBatch cap l).2 < weight l := by
  intro cap l h0 he
  match l with
  | g :: rest =>
    by_cases hfit : g.tokens.length ≤ cap
    · rw [takeBatch_fit cap g rest h0 hfit]
      dsimp only
      have := takeBatch_weight_le (cap - g.tokens.length) rest
      rw [weight_cons]
      omega
    · rw [takeBatch_split cap g rest h0 hfit]
      dsimp only
      rw [weight_cons, weight_cons]
      dsimp only
      rw [List.length_drop]
      omega

theorem batchAllAux_succ (n : Nat) (l : List TokenGroup) (he : ¬ l = []) :
    batchAllAux (n + 1) l =
      (if (takeBatch 200 l).1 = [] then batchAllAux n (takeBatch 200 l).2
       else (takeBatch 200 l).1 :: batchAllAux n (takeBatch 200 l).2) := by
  conv_lhs => unfold batchAllAux
  rw [if_neg he]

theorem batchAllAux_cover :
    ∀ (fuel : Nat) (l : List TokenGroup), weight l ≤ fuel →
      (batchAllAux fuel l).flatMap tokensOfTG = tokensOfTG l := by
  intro fuel
  induction fuel with
  | zero =>
    intro l hl
    have he : l = [] := by
      cases l with
      | nil => rfl
      | cons g rest =>
        rw [weight_cons] at hl
        omega
    subst he
    rfl
  | succ n ih =>
    intro l hl
    by_cases he : l = []
    · subst he
      rfl
    · have hlt := takeBatch_weight_lt 200 l (by omega) he
      have hrec := ih (takeBatch 200 l).2 (by omega)
      have hcov := takeBatch_cover 200 l
      rw [batchAllAux_succ n l he]
      by_cases hb : (takeBatch 200 l).1 = []
      · rw [if_pos hb, hrec]
        rw [hb] at hcov
        simpa [tokensOfTG] using hcov
      · rw [if_neg hb, List.flatMap_cons, hrec]
        exact hcov

theorem batchAllAux_cap :
    ∀ (fuel : Nat) (l : List TokenGroup) (batch : List TokenGroup),
      batch ∈ batchAllAux fuel l → tcount batch ≤ 200 := by
  intro fuel
  induction fuel with
  | zero =>
    intro l batch h
    cases h
  | succ n ih =>
    intro l batch h
    by_cases he : l = []
    · subst he
      cases h
    · rw [batchAllAux_succ n l he] at h
      by_cases hb : (takeBatch 200 l).1 = []
      · rw [if_pos hb] at h
        exact ih _ _ h
      · rw [if_neg hb] at h
        rcases List.mem_cons.mp h with hh | hm
        · subst hh
          exact takeBatch_cap 200 l
        · exact ih _ _ hm

/-! ### Mode-level grouping lemmas for `resubscribe` -/

theorem groupGet_addModeEntry_self (G : List (Int × List (Int × List String)))
    (m e : Int) (t : String) :
    groupGet (addModeEntry G m e t) m =
      some (groupAdd ((groupGet G m).getD []) e t) := by
  induction G with
  | nil => simp [addModeEntry, groupGet, groupAdd]
  | cons p rest ih =>
    obtain ⟨m', em⟩ := p
    by_cases h : m' = m
    · subst h
      simp [addModeEntry, groupGet]
    · simp [addModeEntry, groupGet, h, ih]

theorem groupGet_addModeEntry_ne (G : List (Int × List (Int × List String)))
    (m q e : Int) (t : String) (h : ¬ m = q) :
    groupGet (addModeEntry G m e t) q = groupGet G q := by
  induction G with
  | nil => simp [addModeEntry, groupGet, h]
  | cons p rest ih =>
    obtain ⟨m', em⟩ := p
    by_cases h' : m' = m
    · subst h'
      simp [addModeEntry, groupGet, h]
    · simp only [addModeEntry, if_neg h']
      by_cases h'' : m' = q
      · simp [groupGet, h'']
      · simp [groupGet, h'', ih]

theorem modeGet_fold_mono (l : List SubscriptionData)
    (G0 : List (Int × List (Int × List String))) (q : Int)
    (em0 : List (Int × List String)) (h : groupGet G0 q = some em0) :
    ∃ em, groupGet
      (l.foldl (fun acc sub => addModeEntry acc sub.feedMode sub.exchangeType
        sub.token) G0) q = some em := by
  induction l generalizing G0 em0 with
  | nil => exact ⟨em0, h⟩
  | cons y ys ih =>
    rw [List.foldl_cons]
    by_cases hk : y.feedMode = q
    · subst hk
      exact ih _ _ (groupGet_addModeEntry_self G0 y.feedMode y.exchangeType
        y.token)
    · exact ih _ em0
        (by rw [groupGet_addModeEntry_ne _ _ _ _ _ hk]; exact h)

theorem modeGet_fold_exists (l : List SubscriptionData)
    (G0 : List (Int × List (Int × List String))) (s : SubscriptionData)
    (hs : s ∈ l) :
    ∃ em, groupGet
      (l.foldl (fun acc sub => addModeEntry acc sub.feedMode sub.exchangeType
        sub.token) G0) s.feedMode = some em := by
  induction l generalizing G0 with
  | nil => cases hs
  | cons y ys ih =>
    rw [List.foldl_cons]
    rcases List.mem_cons.mp hs with he | hm
    · subst he
      exact modeGet_fold_mono ys _ s.feedMode _
        (groupGet_addModeEntry_self G0 s.feedMode s.exchangeType s.token)
    · exact ih _ hm

theorem modeGet_fold_getD (l : List SubscriptionData) :
    ∀ (G0 : List (Int × List (Int × List String))) (q : Int),
      (groupGet
        (l.foldl (fun acc sub => addModeEntry acc sub.feedMode
          sub.exchangeType sub.token) G0) q).getD [] =
      ((l.filter (fun s => s.feedMode = q)).foldl
        (fun acc x => groupAdd acc x.exchangeType x.token)
        ((groupGet G0 q).getD [])) := by
  induction l with
  | nil =>
    intro G0 q
    simp
  | cons y ys ih =>
    intro G0 q
    rw [List.foldl_cons]
    by_cases hk : y.feedMode = q
    · subst hk
      rw [ih _ y.feedMode, groupGet_addModeEntry_self]
      simp [List.filter_cons]
    · rw [ih _ q, groupGet_addModeEntry_ne _ _ _ _ _ hk]
      have hf : (y :: ys).filter (fun s => s.feedMode = q) =
          ys.filter (fun s => s.feedMode = q) := by
        simp [List.filter_cons, hk]
      rw [hf]

theorem gsbm_coverage (subs : List SubscriptionData) (sub : SubscriptionData)
    (hs : sub ∈ subs) :
    ∃ em, groupGet (groupSubsByMode subs) sub.feedMode = some em ∧
      ∃ ts, groupGet em sub.exchangeType = some ts ∧ sub.token ∈ ts := by
  obtain ⟨em, hem⟩ := modeGet_fold_exists subs [] sub hs
  refine ⟨em, hem, ?_⟩
  have hchar := modeGet_fold_getD subs [] sub.feedMode
  rw [hem] at hchar
  simp only [Option.getD_some] at hchar
  have hmemf : sub ∈ subs.filter (fun s => s.feedMode = sub.feedMode) :=
    List.mem_filter.mpr ⟨hs, by simp⟩
  obtain ⟨ts, hts, htok⟩ := groupGet_fold_coverage
    (subs.filter (fun s => s.feedMode = sub.feedMode))
    (fun x => x.exchangeType) (fun x => x.token) [] sub hmemf
  refine ⟨ts, ?_, htok⟩
  rw [hchar]
  simpa using hts

/-! ### Frame-level lemmas for `resubscribe` -/

theorem sentFrames_nil : sentFrames [] = [] := rfl

theorem sentFrames_single_sendFrame (r : WebSocketRequest) :
    sentFrames [Output.sendFrame r] = [r] := rfl

theorem sentFrames_single_emitError (a b : String) :
    sentFrames [Output.emitError a b] = [] := rfl

theorem mem_of_mem_enumFrom {α : Type} {p : Nat × α} :
    ∀ (l : List α) (n : Nat), p ∈ l.enumFrom n → p.2 ∈ l := by
  intro l
  induction l with
  | nil =>
    intro n h
    cases h
  | cons y ys ih =>
    intro n h
    rcases List.mem_cons.mp h with he | hm
    · rw [he]
      exact List.mem_cons_self _ _
    · exact List.mem_cons_of_mem _ (ih (n + 1) hm)

theorem sendReq_mem {c : WSClient} {cid : String} {m : Int}
    {tl : List TokenGroup} {a : Int} {req : WebSocketRequest}
    (h : req ∈ sentFrames (sendSubscriptionRequest c cid m tl a)) :
    req = { correlationID := cid, action := a, mode := m, tokenList := tl } := by
  unfold sendSubscriptionRequest at h
  split at h
  · rw [sentFrames_nil] at h
    cases h
  · split at h
    · rw [sentFrames_single_emitError] at h
      cases h
    · rw [sentFrames_single_sendFrame] at h
      exact List.mem_singleton.mp h

theorem sendReq_sends (c : WSClient) (cid : String) (m : Int)
    (tl : List TokenGroup) (a : Int)
    (hw : c.wsPresent = true) (ho : c.wsOpen = true)
    (hg : ¬ (m = FeedMode.DEPTH_20 ∧ totalNseCmTokens tl > 50)) :
    sentFrames (sendSubscriptionRequest c cid m tl a) =
      [{ correlationID := cid, action := a, mode := m, tokenList := tl }] := by
  unfold sendSubscriptionRequest
  rw [if_neg (show ¬¬ (c.wsPresent = true ∧ c.wsOpen = true) by
    simp [hw, ho]), if_neg hg, sentFrames_single_sendFrame]

theorem totalNseCm_singleton (ts : List String) :
    totalNseCmTokens
      [{ exchangeType := ExchangeType.NSE_CM, tokens := ts }] = ts.length := by
  simp [totalNseCmTokens]

/-- Shape and size caps of every frame sent by the per-mode body of
`resubscribe`: the frame carries the group's feed mode and the SUBSCRIBE
action, DEPTH_20 frames hold at most 50 tokens, and every frame holds at
most 200 tokens. -/
theorem resubMode_frames (c : WSClient) (q : Int)
    (em : List (Int × List String)) (req : WebSocketRequest)
    (h : req ∈ sentFrames (resubMode c q em)) :
    req.mode = q ∧ req.action = Action.SUBSCRIBE ∧
      (q = FeedMode.DEPTH_20 → frameTokenCount req ≤ 50) ∧
      frameTokenCount req ≤ 200 := by
  unfold resubMode at h
  by_cases hq : q = FeedMode.DEPTH_20
  · rw [if_pos hq] at h
    dsimp only at h
    by_cases h50 : ((groupGet em ExchangeType.NSE_CM).getD []).length > 50
    · rw [if_pos h50] at h
      rw [foldl_append_flatMap, List.nil_append, sentFrames_flatMap] at h
      obtain ⟨p, hp, hreq⟩ := List.mem_flatMap.mp h
      have he := sendReq_mem hreq
      subst he
      have hsz := depthChunksAux_size
        ((groupGet em ExchangeType.NSE_CM).getD []).length 0
        ((groupGet em ExchangeType.NSE_CM).getD []) p hp
      refine ⟨rfl, rfl, fun _ => ?_, ?_⟩
      · simpa [frameTokenCount] using hsz
      · simp only [frameTokenCount, List.foldl_cons, List.foldl_nil]
        omega
    · rw [if_neg h50] at h
      by_cases h0 : ((groupGet em ExchangeType.NSE_CM).getD []).length > 0
      · rw [if_pos h0] at h
        have he := sendReq_mem h
        subst he
        refine ⟨rfl, rfl, fun _ => ?_, ?_⟩
        · simp only [frameTokenCount, List.foldl_cons, List.foldl_nil]
          omega
        · simp only [frameTokenCount, List.foldl_cons, List.foldl_nil]
          omega
      · rw [if_neg h0, sentFrames_nil] at h
        cases h
  · rw [if_neg hq] at h
    dsimp only at h
    rw [foldl_append_flatMap, List.nil_append, sentFrames_flatMap] at h
    obtain ⟨p, hp, hreq⟩ := List.mem_flatMap.mp h
    have he := sendReq_mem hreq
    subst he
    have hb : p.2 ∈ batchAllAux
        (weight (em.map fun g => ({ exchangeType := g.1, tokens := g.2 } :
          TokenGroup)))
        (em.map fun g => ({ exchangeType := g.1, tokens := g.2 } :
          TokenGroup)) :=
      mem_of_mem_enumFrom _ 0 hp
    have hcap := batchAllAux_cap _ _ p.2 hb
    refine ⟨rfl, rfl, fun h4 => absurd h4 hq, ?_⟩
    exact hcap

/-- Coverage of one registry entry by the per-mode body of `resubscribe`:
every (exchange, token) pair recorded in the mode's exchange grouping is
carried by some sent frame of that mode. -/
theorem resubMode_coverage (c : WSClient) (q e : Int) (tok : String)
    (em : List (Int × List String)) (ts : List String)
    (hw : c.wsPresent = true) (ho : c.wsOpen = true)
    (hts : groupGet em e = some ts) (htok : tok ∈ ts)
    (hnse : q = FeedMode.DEPTH_20 → e = ExchangeType.NSE_CM) :
    ∃ req, req ∈ sentFrames (resubMode c q em) ∧ req.mode = q ∧
      req.action = Action.SUBSCRIBE ∧
      (e, tok) ∈ tokensOfTG req.tokenList := by
  by_cases hq : q = FeedMode.DEPTH_20
  · have he := hnse hq
    subst he
    unfold resubMode
    rw [if_pos hq]
    dsimp only
    rw [hts]
    simp only [Option.getD_some]
    by_cases h50 : ts.length > 50
    · rw [if_pos h50]
      have hjoin := depthChunksAux_join ts.length 0 ts (le_refl _)
      have hmem : tok ∈ (depthChunks ts).flatMap Prod.snd := by
        rw [show (depthChunks ts).flatMap Prod.snd = ts from hjoin]
        exact htok
      obtain ⟨p, hp, htp⟩ := List.mem_flatMap.mp hmem
      refine ⟨{ correlationID := "resubscribe-depth20-" ++ toString p.1,
                action := Action.SUBSCRIBE, mode := q,
                tokenList := [{ exchangeType := ExchangeType.NSE_CM,
                                tokens := p.2 }] }, ?_, rfl, rfl, ?_⟩
      · rw [foldl_append_flatMap, List.nil_append, sentFrames_flatMap]
        refine List.mem_flatMap.mpr ⟨p, hp, ?_⟩
        have hsz := depthChunksAux_size ts.length 0 ts p hp
        rw [sendReq_sends c _ q _ Action.SUBSCRIBE hw ho (fun hcon => by
          rw [totalNseCm_singleton] at hcon
          omega)]
        exact List.mem_singleton.mpr rfl
      · simp only [tokensOfTG]
        exact List.mem_flatMap.mpr
          ⟨{ exchangeType := ExchangeType.NSE_CM, tokens := p.2 },
           List.mem_singleton.mpr rfl, List.mem_map.mpr ⟨tok, htp, rfl⟩⟩
    · rw [if_neg h50]
      have h0 : ts.length > 0 :=
        List.length_pos.mpr (List.ne_nil_of_mem htok)
      rw [if_pos h0]
      refine ⟨{ correlationID := "resubscribe-depth20",
                action := Action.SUBSCRIBE, mode := q,
                tokenList := [{ exchangeType := ExchangeType.NSE_CM,
                                tokens := ts }] }, ?_, rfl, rfl, ?_⟩
      · rw [sendReq_sends c _ q _ Action.SUBSCRIBE hw ho (fun hcon => by
          rw [totalNseCm_singleton] at hcon
          omega)]
        exact List.mem_singleton.mpr rfl
      · simp only [tokensOfTG]
        exact List.mem_flatMap.mpr
          ⟨{ exchangeType := ExchangeType.NSE_CM, tokens := ts },
           List.mem_singleton.mpr rfl, List.mem_map.mpr ⟨tok, htok, rfl⟩⟩
  · unfold resubMode
    rw [if_neg hq]
    dsimp only
    have hm : (e, ts) ∈ em := mem_of_groupGet hts
    have hpair : (e, tok) ∈ tokensOfTG
        (em.map fun g => ({ exchangeType := g.1, tokens := g.2 } :
          TokenGroup)) := by
      simp only [tokensOfTG]
      exact List.mem_flatMap.mpr ⟨{ exchangeType := e, tokens := ts },
        List.mem_map.mpr ⟨(e, ts), hm, rfl⟩,
        List.mem_map.mpr ⟨tok, htok, rfl⟩⟩
    have hcov := batchAllAux_cover
      (weight (em.map fun g => ({ exchangeType := g.1, tokens := g.2 } :
        TokenGroup)))
      (em.map fun g => ({ exchangeType := g.1, tokens := g.2 } :
        TokenGroup)) (le_refl _)
    rw [← hcov] at hpair
    obtain ⟨batch, hb, hbp⟩ := List.mem_flatMap.mp hpair
    obtain ⟨i, hi⟩ := mem_enumFrom_of_mem _ 0 hb
    refine ⟨{ correlationID := "resubscribe-mode" ++ toString q ++ "-" ++
                toString i,
              action := Action.SUBSCRIBE, mode := q, tokenList := batch },
            ?_, rfl, rfl, hbp⟩
    rw [foldl_append_flatMap, List.nil_append, sentFrames_flatMap]
    refine List.mem_flatMap.mpr ⟨(i, batch), hi, ?_⟩
    rw [sendReq_sends c _ q batch Action.SUBSCRIBE hw ho
      (fun hcon => hq hcon.1)]
    exact List.mem_singleton.mpr rfl

theorem resubscribe_state (c : WSClient) : (resubscribe c).1 = c := by
  unfold resubscribe
  split
  · rfl
  · rfl

theorem resubscribe_frames (c : WSClient) (req : WebSocketRequest)
    (h : req ∈ sentFrames (resubscribe c).2) :
    ∃ p, p ∈ groupSubsByMode (c.subscriptions.map Prod.snd) ∧
      req ∈ sentFrames (resubMode c p.1 p.2) := by
  unfold resubscribe at h
  by_cases hs : c.subscriptions = []
  · rw [if_pos hs] at h
    simp [sentFrames] at h
  · rw [if_neg hs] at h
    dsimp only at h
    rw [foldl_append_flatMap, List.nil_append, sentFrames_flatMap] at h
    obtain ⟨p, hp, hm⟩ := List.mem_flatMap.mp h
    exact ⟨p, hp, hm⟩

theorem resubscribe_sends (c : WSClient) (q : Int)
    (em : List (Int × List String)) (req : WebSocketRequest)
    (hne : ¬ c.subscriptions = [])
    (hbm : (q, em) ∈ groupSubsByMode (c.subscriptions.map Prod.snd))
    (hm : req ∈ sentFrames (resubMode c q em)) :
    req ∈ sentFrames (resubscribe c).2 := by
  unfold resubscribe
  rw [if_neg hne]
  dsimp only
  rw [foldl_append_flatMap, List.nil_append, sentFrames_flatMap]
  exact List.mem_flatMap.mpr ⟨(q, em), hbm, hm⟩

theorem closeHandler_subscriptions (c : WSClient) :
    (closeHandler c).1.subscriptions = c.subscriptions := by
  by_cases hr : c.reconnectAttempts ≥ c.maxReconnectAttempts <;>
    simp [closeHandler, attemptReconnect, hr]

theorem connect_subscriptions (c : WSClient) (b : Bool) :
    (connect c b).1.subscriptions = c.subscriptions := by
  by_cases h : c.connectionState = ConnectionState.CONNECTED <;>
    cases b <;> simp [connect, h]

/-- A CONNECTED market-data client whose registry holds one QUOTE NSE_FO
entry and one DEPTH_20 NSE_CM entry (a mix reachable through `subscribe`,
which validates DEPTH_20 requests to NSE_CM). -/
def resubClient : WSClient :=
  { connectedClient with
      subscriptions :=
        [("2:57920", { correlationId := "q1", exchangeType := 2,
                       token := "57920", feedMode := 2 }),
         ("1:2885", { correlationId := "d1", exchangeType := 1,
                      token := "2885", feedMode := 4 })] }

/-- C5: on a successful reconnect (socket present and open, which is the
state in which the `open` handler invokes `resubscribe`), the client
replays the subscription registry: `resubscribe` leaves the whole client
state — in particular the registry — unchanged; the `close` handler that
triggers reconnection and `connect` itself also preserve the registry,
while an explicit `disconnect()` clears it; every registry entry (its
exchange, token) travels in some sent subscribe frame carrying that
entry's feed mode; and every sent frame holds at most 50 tokens when its
mode is DEPTH_20 and at most 200 tokens otherwise.  The DEPTH_20→NSE_CM
hypothesis is the invariant `subscribe`/`subscribeMultiple` enforce on
every registry entry. -/
theorem c5_resubscribe_replay (c : WSClient)
    (hw : c.wsPresent = true) (ho : c.wsOpen = true)
    (hd20 : ∀ p ∈ c.subscriptions,
      (Prod.snd p).feedMode = FeedMode.DEPTH_20 →
      (Prod.snd p).exchangeType = ExchangeType.NSE_CM) :
    (resubscribe c).1 = c ∧
    (closeHandler c).1.subscriptions = c.subscriptions ∧
    (∀ b, (connect c b).1.subscriptions = c.subscriptions) ∧
    (¬ c.connectionState = ConnectionState.DISCONNECTED →
      (disconnect c).1.subscriptions = []) ∧
    (∀ sub ∈ c.subscriptions.map Prod.snd,
      ∃ req, req ∈ sentFrames (resubscribe c).2 ∧
        req.mode = sub.feedMode ∧ req.action = Action.SUBSCRIBE ∧
        (sub.exchangeType, sub.token) ∈ tokensOfTG req.tokenList) ∧
    (∀ req, req ∈ sentFrames (resubscribe c).2 →
      req.action = Action.SUBSCRIBE ∧
      (req.mode = FeedMode.DEPTH_20 → frameTokenCount req ≤ 50) ∧
      frameTokenCount req ≤ 200) := by
  refine ⟨resubscribe_state c, closeHandler_subscriptions c,
    fun b => connect_subscriptions c b, ?_, ?_, ?_⟩
  · intro hne
    simp [disconnect_of_wsPresent hne hw]
  · intro sub hsub
    have hne : ¬ c.subscriptions = [] := by
      intro hnil
      rw [hnil] at hsub
      simp at hsub
    obtain ⟨pr, hpr, hpr2⟩ := List.mem_map.mp hsub
    obtain ⟨em, hem, ts, hts, htok⟩ :=
      gsbm_coverage (c.subscriptions.map Prod.snd) sub hsub
    have hnse : sub.feedMode = FeedMode.DEPTH_20 →
        sub.exchangeType = ExchangeType.NSE_CM := by
      intro h4
      rw [← hpr2]
      exact hd20 pr hpr (by rw [hpr2]; exact h4)
    obtain ⟨req, hmem, hmode, hact, hpair⟩ :=
      resubMode_coverage c sub.feedMode sub.exchangeType sub.token em ts
        hw ho hts htok hnse
    exact ⟨req, resubscribe_sends c sub.feedMode em req hne
      (mem_of_groupGet hem) hmem, hmode, hact, hpair⟩
  · intro req hreq
    obtain ⟨p, hp, hmem⟩ := resubscribe_frames c req hreq
    obtain ⟨hmode, hact, h50, h200⟩ := resubMode_frames c p.1 p.2 req hmem
    exact ⟨hact, fun h4 => h50 (by rw [← hmode]; exact h4), h200⟩

/-- C5 witness: the replay theorem instantiated at a concrete connected
client holding one QUOTE and one DEPTH_20 registry entry. -/
theorem c5_resubscribe_replay_witness :
    (resubscribe resubClient).1 = resubClient ∧
    (closeHandler resubClient).1.subscriptions = resubClient.subscriptions ∧
    (∀ b, (connect resubClient b).1.subscriptions =
      resubClient.subscriptions) ∧
    (¬ resubClient.connectionState = ConnectionState.DISCONNECTED →
      (disconnect resubClient).1.subscriptions = []) ∧
    (∀ sub ∈ resubClient.subscriptions.map Prod.snd,
      ∃ req, req ∈ sentFrames (resubscribe resubClient).2 ∧
        req.mode = sub.feedMode ∧ req.action = Action.SUBSCRIBE ∧
        (sub.exchangeType, sub.token) ∈ tokensOfTG req.tokenList) ∧
    (∀ req, req ∈ sentFrames (resubscribe resubClient).2 →
      req.action = Action.SUBSCRIBE ∧
      (req.mode = FeedMode.DEPTH_20 → frameTokenCount req ≤ 50) ∧
      frameTokenCount req ≤ 200) :=
  c5_resubscribe_replay resubClient rfl rfl (by decide)

end SmartAPI
